import Mathlib

/-!
Verification of the report-ingestion core of the `mummysboy/amazon` seller
dashboard (NestJS backend, `src/backend/src/uploads`).

This file gives a shallow embedding, in Lean 4, of the pieces of the
ingestion pipeline that the frozen claims talk about:

* the field-coercion utilities of `parsers/base.parser.ts`
  (`cleanString`, `parseCSVLine`, `parseDate`, `parseCurrency`,
  `parsePercentage`, `parseInt`, `parseFloat`, `createResult`,
  `extractDateRange`);
* the advertising-bulk Excel parser (`parsers/advertising-bulk.parser.ts`):
  filename date extraction, sheet classification, campaign-sheet and
  search-term-sheet row extraction, `parseNumber`, `parsePercentageValue`;
* the advertising-report CSV parser (`parsers/advertising-report.parser.ts`):
  the column resolver (`buildColumnMap` / `getColumn`) and full row parsing
  with derived-metric guards;
* the product-performance and search-terms deduplication steps;
* the advertising-bulk save strategy of `uploads.service.ts`
  (`saveAdvertisingBulk`): in-memory aggregation by the composite key and
  post-aggregation recomputation of the derived ratios;
* the session lifecycle of `processUpload` together with
  `ingestion-logger.service.ts` (`markSessionProcessing`,
  `markSessionCompleted`, `markSessionFailed`, `updateUploadSession`).

Modelling conventions:

* JavaScript numbers are modelled as `ℚ` (exact arithmetic; the claims under
  study are structural properties of aggregation and zero-division guards,
  not floating-point rounding facts).  Rationals are constructed with
  `mkRat` so that closed terms evaluate inside the kernel.
* Excel cell values (`unknown` in the TypeScript source) are modelled by
  `CellValue`: a number, a string, or an absent/null value.  A sheet row,
  as produced by `XLSX.utils.sheet_to_json`, is a total function from
  column-header names to `CellValue` (absent columns map to
  `CellValue.empty`).
* JavaScript's `parseFloat`/`parseInt` are modelled on the fragment of
  inputs the pipeline produces: optional leading whitespace, optional sign,
  decimal digits with an optional fractional part.  Exponent notation and
  `Infinity` are not modelled; no call site in the embedded code paths
  produces them.
* `String(n)` applied to a number is modelled by `numToStr`; it agrees with
  JavaScript on integers (the only values the claims evaluate it on) and is
  never the empty string, which is the only property proofs rely on.
* The database / `Map` object semantics: a JavaScript `Map` is modelled as
  an association list in insertion order (`Map.set` on a fresh key appends;
  on an existing key it updates in place), which is exactly the iteration
  order `Array.from(map.values())` observes.
* The upload-session store is modelled as reliable: `updateUploadSession`'s
  write is applied to the session record.  (The spec places the storage
  engine itself out of scope and treats it as a row store reachable through
  its interface.)
-/

/-! ## Small string and number utilities -/

/-- Digits of a natural number, most significant first.  The first argument
is fuel (always sufficient at `n + 1`), keeping the recursion structural so
that closed terms reduce in the kernel. -/
def natDigitsAux : Nat → Nat → List Char
  | 0, _ => []
  | fuel + 1, n =>
    if n < 10 then [Nat.digitChar n]
    else natDigitsAux fuel (n / 10) ++ [Nat.digitChar (n % 10)]

/-- Decimal digit list of a natural number. -/
def natToDigits (n : Nat) : List Char := natDigitsAux (n + 1) n

/-- Model of JavaScript `String(x)` on a number `x`.  Faithful on integers
(the only case the embedded claims evaluate); a non-integral rational is
rendered as `num/den`, standing in for JavaScript's decimal rendering.  The
result is never empty. -/
def numToStr (q : ℚ) : String :=
  let sign := if q.num < 0 then "-" else ""
  if q.den = 1 then sign ++ String.mk (natToDigits q.num.natAbs)
  else sign ++ String.mk (natToDigits q.num.natAbs) ++ "/" ++ String.mk (natToDigits q.den)

/-- Numeric value of a list of decimal digit characters (the usual
left-to-right accumulation). -/
def digitsToNat (l : List Char) : Nat :=
  l.foldl (fun a c => 10 * a + (c.toNat - 48)) 0

/-- Model of JavaScript `parseFloat` on decimal literals: skips leading
whitespace, reads an optional sign, then the longest prefix of the form
`digits`, `digits.digits` or `.digits`; returns `none` when no digit is
consumed (JavaScript `NaN`). -/
def jsParseFloat? (s : String) : Option ℚ :=
  let cs := s.toList.dropWhile (fun c => c.isWhitespace)
  let signed : Bool × List Char :=
    match cs with
    | '-' :: t => (true, t)
    | '+' :: t => (false, t)
    | _ => (false, cs)
  let neg := signed.1
  let ip := signed.2.takeWhile (fun c => c.isDigit)
  let rest := signed.2.dropWhile (fun c => c.isDigit)
  let mag : Option ℚ :=
    match rest with
    | '.' :: t =>
      let fp := t.takeWhile (fun c => c.isDigit)
      if ip.isEmpty && fp.isEmpty then none
      else some (mkRat (digitsToNat ip) 1 + mkRat (digitsToNat fp) (10 ^ fp.length))
    | _ => if ip.isEmpty then none else some (mkRat (digitsToNat ip) 1)
  mag.map (fun m => if neg then -m else m)

/-- Model of JavaScript `parseInt` on decimal literals: skips leading
whitespace, reads an optional sign and the longest digit prefix; `none`
when no digit is consumed. -/
def jsParseInt? (s : String) : Option ℚ :=
  let cs := s.toList.dropWhile (fun c => c.isWhitespace)
  let signed : Bool × List Char :=
    match cs with
    | '-' :: t => (true, t)
    | '+' :: t => (false, t)
    | _ => (false, cs)
  let ip := signed.2.takeWhile (fun c => c.isDigit)
  if ip.isEmpty then none
  else some (if signed.1 then -(mkRat (digitsToNat ip) 1) else mkRat (digitsToNat ip) 1)

/-- Does `pat` occur as a prefix of `l`? -/
def matchAt : List Char → List Char → Bool
  | [], _ => true
  | _ :: _, [] => false
  | c :: cs, d :: ds => c = d && matchAt cs ds

/-- Scan for `pat` anywhere inside `l`. -/
def subScan (pat : List Char) : List Char → Bool
  | [] => matchAt pat []
  | l@(_ :: t) => matchAt pat l || subScan pat t

/-- Model of JavaScript `haystack.includes(needle)`. -/
def strIncludes (haystack needle : String) : Bool :=
  subScan needle.toList haystack.toList

/-- Remove the first occurrence of character `c` (JavaScript
`s.replace('c', '')` with a string pattern replaces only the first
occurrence). -/
def removeFirstChar (c : Char) : List Char → List Char
  | [] => []
  | d :: t => if d = c then t else d :: removeFirstChar c t

/-- Remove every occurrence of `'$'` and `','` (JavaScript
`s.replace(/[$,]/g, '')`). -/
def stripDollarComma (s : String) : String :=
  String.mk (s.toList.filter (fun c => ¬(c = '$' ∨ c = ',')))

/-- Remove every occurrence of `','` (JavaScript `s.replace(/,/g, '')`). -/
def stripCommas (s : String) : String :=
  String.mk (s.toList.filter (fun c => c ≠ ','))

/-- Drop a single leading quote character (double or single), as matched by
the `^["']` alternative of the `cleanString` regex. -/
def stripQuoteHead : List Char → List Char
  | [] => []
  | c :: t => if c = '"' ∨ c = '\'' then t else c :: t

/-- Character-list model of `String.toLowerCase` (kernel-computable). -/
def toLowerStr (s : String) : String := String.mk (s.toList.map Char.toLower)

/-- Character-list model of `String.toUpperCase` (kernel-computable). -/
def toUpperStr (s : String) : String := String.mk (s.toList.map Char.toUpper)

/-- Character-list model of `String.trim` (kernel-computable): drop
whitespace from both ends. -/
def trimStr (s : String) : String :=
  String.mk (((s.toList.dropWhile Char.isWhitespace).reverse.dropWhile
    Char.isWhitespace).reverse)

/-- Character-list model of `s.substring(0, n)` / `s.slice(a, b)` prefixes
(kernel-computable). -/
def strTake (s : String) (n : Nat) : String := String.mk (s.toList.take n)

/-- Character-list model of dropping the first `n` characters
(kernel-computable). -/
def strDrop (s : String) (n : Nat) : String := String.mk (s.toList.drop n)

/-- Split a character list at every occurrence of `c` (model of JavaScript
`s.split(c)` for a single-character separator; kernel-computable). -/
def splitOnChar (c : Char) : List Char → List (List Char)
  | [] => [[]]
  | d :: t =>
    match splitOnChar c t with
    | [] => [[d]]
    | h :: rest => if d = c then [] :: h :: rest else (d :: h) :: rest

/-- String version of `splitOnChar`. -/
def splitOnCharStr (c : Char) (s : String) : List String :=
  (splitOnChar c s.toList).map String.mk

/-! ## Field coercion utilities (`parsers/base.parser.ts`) -/

/-- Embedding of `BaseParser.cleanString`: for a present value,
`value.replace(/^["']|["']$/g, '').trim()` — at most one leading and one
trailing quote are removed, then the result is trimmed; an absent or empty
value gives `""` (callers pass `""` for `undefined`). -/
def cleanString (s : String) : String :=
  if s = "" then ""
  else
    let l := stripQuoteHead s.toList
    let l2 := (stripQuoteHead l.reverse).reverse
    trimStr (String.mk l2)

/-- One character step of the CSV splitter of `BaseParser.parseCSVLine`:
quotes toggle the in-quotes flag, a comma outside quotes ends the field
(pushed trimmed), anything else is accumulated. -/
def csvStep (st : List String × List Char × Bool) (c : Char) :
    List String × List Char × Bool :=
  let res := st.1
  let cur := st.2.1
  let inQuotes := st.2.2
  if c = '"' then (res, cur, !inQuotes)
  else if c = ',' ∧ inQuotes = false then (res ++ [trimStr (String.mk cur)], [], false)
  else (res, cur ++ [c], inQuotes)

/-- Embedding of `BaseParser.parseCSVLine`. -/
def parseCSVLine (line : String) : List String :=
  let st := line.toList.foldl csvStep ([], [], false)
  st.1 ++ [trimStr (String.mk st.2.1)]

/-- Embedding of `BaseParser.parseTSVLine`. -/
def parseTSVLine (line : String) : List String :=
  (splitOnCharStr '\t' line).map cleanString

/-- JavaScript `s.padStart(2, '0')`. -/
def padTwo (s : String) : String :=
  if s.length ≥ 2 then s
  else if s.length = 1 then "0" ++ s
  else "00"

/-- Test for the `^\d{4}-\d{2}-\d{2}$` pattern of `BaseParser.parseDate`. -/
def isIsoDate (s : String) : Bool :=
  match s.toList with
  | [a, b, c, d, e, f, g, h, i, j] =>
    a.isDigit && b.isDigit && c.isDigit && d.isDigit && e = '-' &&
    f.isDigit && g.isDigit && h = '-' && i.isDigit && j.isDigit
  | _ => false

/-- Embedding of `BaseParser.parseDate`: `MM/DD/YY` / `MM/DD/YYYY` are
normalised to `YYYY-MM-DD` (two-digit years get a `20` prefix), an
already-ISO string passes through, anything else is returned as cleaned. -/
def parseDate (dateStr : String) : String :=
  if dateStr = "" then ""
  else
    let cleaned := cleanString dateStr
    let slashParts := splitOnCharStr '/' cleaned
    if slashParts.length = 3 then
      let p2 := slashParts.getD 2 ""
      let year := if p2.length = 2 then "20" ++ p2 else p2
      year ++ "-" ++ padTwo (slashParts.getD 0 "") ++ "-" ++ padTwo (slashParts.getD 1 "")
    else if isIsoDate cleaned then cleaned
    else cleaned

/-- Embedding of `BaseParser.parseCurrency`: strip `$`/`,`, trim, parse;
`NaN` (and absent input) coerces to `0` through `|| 0`. -/
def parseCurrencyStr (s : String) : ℚ :=
  if s = "" then 0
  else (jsParseFloat? (trimStr (stripDollarComma s))).getD 0

/-- Embedding of `BaseParser.parsePercentage`: strip the first `%`, trim,
parse; fallback `0`. -/
def parsePercentageStr (s : String) : ℚ :=
  if s = "" then 0
  else (jsParseFloat? (trimStr (String.mk (removeFirstChar '%' s.toList)))).getD 0

/-- Embedding of `BaseParser.parseInt`: strip `,`, trim, integer-parse;
fallback `0`. -/
def parseIntStr (s : String) : ℚ :=
  if s = "" then 0
  else (jsParseInt? (trimStr (stripCommas s))).getD 0

/-- Embedding of `BaseParser.parseFloat`: strip `,`, trim, parse;
fallback `0`. -/
def parseFloatStr (s : String) : ℚ :=
  if s = "" then 0
  else (jsParseFloat? (trimStr (stripCommas s))).getD 0

/-! ## Parse results (`base.parser.ts` interfaces) -/

/-- Embedding of the `ParseError` interface. -/
structure ParseError where
  row : Nat
  field : Option String
  message : String
  rawValue : Option String
deriving DecidableEq

/-- Embedding of the `ParseMetadata` interface. -/
structure ParseMetadata where
  totalRows : Nat
  parsedRows : Nat
  skippedRows : Nat
  dateRange : Option (String × String)
deriving DecidableEq

/-- Embedding of the `ParseResult<T>` interface. -/
structure ParseResult (T : Type) where
  data : List T
  errors : List ParseError
  metadata : ParseMetadata

/-- Embedding of `BaseParser.createResult`: `parsedRows` is the length of
`data` and `skippedRows` is computed as `totalRows - parsedRows`. -/
def createResult {T : Type} (data : List T) (errors : List ParseError)
    (totalRows : Nat) (dateRange : Option (String × String)) : ParseResult T :=
  { data := data
    errors := errors
    metadata :=
      { totalRows := totalRows
        parsedRows := data.length
        skippedRows := totalRows - data.length
        dateRange := dateRange } }

/-- Insert a string into an already sorted list (ascending). -/
def insortStr (s : String) : List String → List String
  | [] => [s]
  | t :: r => if s ≤ t then s :: t :: r else t :: insortStr s r

/-- Sort a list of strings ascending (model of JavaScript `Array.sort()` on
strings; equal strings are identical, so any correct sort yields the same
list). -/
def sortStrs (l : List String) : List String := l.foldr insortStr []

/-- Embedding of `BaseParser.extractDateRange`: keep non-empty dates, sort,
return first and last. -/
def extractDateRange (dates : List String) : Option (String × String) :=
  let validDates := sortStrs (dates.filter (fun d => d ≠ ""))
  if validDates.isEmpty then none
  else some (validDates.getD 0 "", validDates.getD (validDates.length - 1) "")

/-! ## Excel cell values and the advertising-bulk parser
(`parsers/advertising-bulk.parser.ts`) -/

/-- Model of an `unknown` Excel cell value as produced by
`XLSX.utils.sheet_to_json`: a number, a string, or absent
(`null`/`undefined`). -/
inductive CellValue where
  | num (q : ℚ)
  | str (s : String)
  | empty
deriving DecidableEq

/-- JavaScript falsiness of a cell value (`!value`): absent values, the
empty string and the number `0`. -/
def cellFalsy : CellValue → Bool
  | .empty => true
  | .num q => q = 0
  | .str s => s = ""

/-- JavaScript `a || b` on cell values. -/
def jsOr (v w : CellValue) : CellValue := if cellFalsy v then w else v

/-- Rendering of a truthy cell value under JavaScript `String(·)`. -/
def cellRender : CellValue → String
  | .num q => numToStr q
  | .str s => s
  | .empty => ""

/-- Model of `String(value || '')`: falsy values render as `""`, truthy
values through `String(·)`. -/
def jsStrOr (v : CellValue) : String :=
  if cellFalsy v then "" else cellRender v

/-- JavaScript `a || b` on strings (`""` is the only falsy string). -/
def strOrElse (a b : String) : String := if a = "" then b else a

/-- Embedding of `AdvertisingBulkParser.parseNumber`: absent or empty cells
give `0`; numeric cells pass through; strings are stripped of `$`/`,` and
parsed, `NaN` giving `0`. -/
def parseNumber : CellValue → ℚ
  | .empty => 0
  | .num q => q
  | .str s => if s = "" then 0 else (jsParseFloat? (stripDollarComma s)).getD 0

/-- Embedding of `AdvertisingBulkParser.parsePercentageValue`: absent or
empty cells give `0`; a numeric cell is multiplied by 100 exactly when it
is `< 1`; a string cell has its first `%` removed and is parsed, with no
scaling, `NaN` giving `0`. -/
def parsePercentageValue : CellValue → ℚ
  | .empty => 0
  | .num q => if q < 1 then q * 100 else q
  | .str s => if s = "" then 0 else (jsParseFloat? (String.mk (removeFirstChar '%' s.toList))).getD 0

/-- A sheet row from `sheet_to_json`: a total map from column-header names
to cell values (absent columns are `CellValue.empty`). -/
def SheetRow : Type := String → CellValue

/-- Embedding of the `AdvertisingBulkRow` interface (metrics as `ℚ`). -/
structure AdvertisingBulkRow where
  report_date : String
  campaign_id : String
  campaign_name : String
  campaign_type : String
  campaign_status : String
  ad_group_id : String
  ad_group_name : String
  keyword_id : String
  keyword_text : String
  match_type : String
  targeting_type : String
  sku : String
  asin : String
  impressions : ℚ
  clicks : ℚ
  spend : ℚ
  sales : ℚ
  orders : ℚ
  units : ℚ
  acos : ℚ
  roas : ℚ
  ctr : ℚ
  cpc : ℚ
  conversion_rate : ℚ
deriving DecidableEq

/-- Row constructed by the body of the `processCampaignSheet` loop for a
sheet row that is not skipped (entity-dependent keyword/ad-group fields,
then the coerced metric columns). -/
def mkCampaignRow (campaignType reportDate : String) (r : SheetRow) :
    AdvertisingBulkRow :=
  let impressions := parseNumber (r "Impressions")
  let entity := toLowerStr (jsStrOr (r "Entity"))
  let kwFields : String × String × String × String :=
    if entity = "keyword" ∨ entity = "product targeting" then
      (jsStrOr (r "Ad Group ID"),
       jsStrOr (jsOr (r "Keyword ID") (r "Product Targeting ID")),
       jsStrOr (jsOr (r "Keyword Text") (r "Product Targeting Expression")),
       jsStrOr (r "Match Type"))
    else if entity = "ad group" ∨ entity = "ad" then
      (jsStrOr (r "Ad Group ID"), "", "", "")
    else ("", "", "", "")
  { report_date := reportDate
    campaign_id := jsStrOr (r "Campaign ID")
    campaign_name := jsStrOr (jsOr (r "Campaign Name") (r "Campaign Name (Informational only)"))
    campaign_type := campaignType
    campaign_status := jsStrOr (jsOr (r "State") (r "Campaign State (Informational only)"))
    ad_group_id := kwFields.1
    ad_group_name := jsStrOr (jsOr (r "Ad Group Name") (r "Ad Group Name (Informational only)"))
    keyword_id := kwFields.2.1
    keyword_text := kwFields.2.2.1
    match_type := kwFields.2.2.2
    targeting_type := jsStrOr (jsOr (r "Targeting Type") (r "Tactic"))
    sku := jsStrOr (r "SKU")
    asin := jsStrOr (jsOr (r "ASIN (Informational only)") (r "ASIN"))
    impressions := impressions
    clicks := parseNumber (r "Clicks")
    spend := parseNumber (r "Spend")
    sales := parseNumber (r "Sales")
    orders := parseNumber (r "Orders")
    units := parseNumber (r "Units")
    acos := parsePercentageValue (r "ACOS")
    roas := parseNumber (r "ROAS")
    ctr := parsePercentageValue (r "Click-through Rate")
    cpc := parseNumber (r "CPC")
    conversion_rate := parsePercentageValue (r "Conversion Rate") }

/-- Embedding of `AdvertisingBulkParser.processCampaignSheet`: a row is
skipped when it has no impressions and a falsy `Campaign ID`
(header/section rows), and again when its `Campaign ID` renders empty;
otherwise `mkCampaignRow` is emitted. -/
def processCampaignSheet (campaignType reportDate : String) :
    List SheetRow → List AdvertisingBulkRow
  | [] => []
  | r :: rest =>
    let impressions := parseNumber (r "Impressions")
    if impressions = 0 ∧ cellFalsy (r "Campaign ID") then
      processCampaignSheet campaignType reportDate rest
    else
      let campaignId := jsStrOr (r "Campaign ID")
      if campaignId = "" then processCampaignSheet campaignType reportDate rest
      else mkCampaignRow campaignType reportDate r ::
        processCampaignSheet campaignType reportDate rest

/-- Row constructed by the body of the `processSearchTermSheet` loop. -/
def mkSearchTermRow (campaignType reportDate : String) (r : SheetRow) :
    AdvertisingBulkRow :=
  let searchTerm := jsStrOr (r "Customer Search Term")
  { report_date := reportDate
    campaign_id := jsStrOr (r "Campaign ID")
    campaign_name := jsStrOr (r "Campaign Name (Informational only)")
    campaign_type := campaignType
    campaign_status := jsStrOr (jsOr (r "State") (r "Campaign State (Informational only)"))
    ad_group_id := jsStrOr (r "Ad Group ID")
    ad_group_name := jsStrOr (r "Ad Group Name (Informational only)")
    keyword_id := jsStrOr (jsOr (r "Keyword ID") (r "Product Targeting ID"))
    keyword_text := strOrElse searchTerm
      (jsStrOr (jsOr (r "Keyword Text") (r "Product Targeting Expression")))
    match_type := jsStrOr (r "Match Type")
    targeting_type := ""
    sku := ""
    asin := ""
    impressions := parseNumber (r "Impressions")
    clicks := parseNumber (r "Clicks")
    spend := parseNumber (r "Spend")
    sales := parseNumber (r "Sales")
    orders := parseNumber (r "Orders")
    units := parseNumber (r "Units")
    acos := parsePercentageValue (r "ACOS")
    roas := parseNumber (r "ROAS")
    ctr := parsePercentageValue (r "Click-through Rate")
    cpc := parseNumber (r "CPC")
    conversion_rate := parsePercentageValue (r "Conversion Rate") }

/-- Embedding of `AdvertisingBulkParser.processSearchTermSheet`: only rows
whose `Campaign ID` renders empty are skipped. -/
def processSearchTermSheet (campaignType reportDate : String) :
    List SheetRow → List AdvertisingBulkRow
  | [] => []
  | r :: rest =>
    let campaignId := jsStrOr (r "Campaign ID")
    if campaignId = "" then processSearchTermSheet campaignType reportDate rest
    else mkSearchTermRow campaignType reportDate r ::
      processSearchTermSheet campaignType reportDate rest

/-- Match of the fixed-width `\d{8}-\d{8}` pattern anchored at the current
position. -/
def matchDatePairAt (l : List Char) : Option (String × String) :=
  let a := l.take 8
  let rest := l.drop 8
  if a.length = 8 ∧ a.all Char.isDigit then
    match rest with
    | '-' :: r2 =>
      let b := r2.take 8
      if b.length = 8 ∧ b.all Char.isDigit then some (String.mk a, String.mk b)
      else none
    | _ => none
  else none

/-- Leftmost match of `/(\d{8})-(\d{8})/`, scanning start positions left to
right as the JavaScript regex engine does. -/
def scanDatePair : List Char → Option (String × String)
  | [] => none
  | l@(_ :: t) =>
    match matchDatePairAt l with
    | some p => some p
    | none => scanDatePair t

/-- `YYYYMMDD → YYYY-MM-DD` via the three `slice` calls of the source. -/
def fmtDate8 (s : String) : String :=
  strTake s 4 ++ "-" ++ strTake (strDrop s 4) 2 ++ "-" ++ strTake (strDrop s 6) 2

/-- Embedding of `AdvertisingBulkParser.extractDateFromFilename` together
with its side effect on `this.dateRange`: returns the report date (the end
date on a match, today's date otherwise) and the date range set on a match
(`none` when the pattern is absent on a fresh parser instance). -/
def extractDateFromFilename (filename : Option String) (today : String) :
    String × Option (String × String) :=
  match filename with
  | some f =>
    match scanDatePair f.toList with
    | some (startDate, endDate) =>
      (fmtDate8 endDate, some (fmtDate8 startDate, fmtDate8 endDate))
    | none => (today, none)
  | none => (today, none)

/-- A parsed workbook: sheets in order, each a name with its
`sheet_to_json` rows. -/
def Workbook : Type := List (String × List SheetRow)

/-- Sheet dispatch of the `for (const sheetName of workbook.SheetNames)`
loop: case-insensitive name patterns choose the campaign type or the
search-term handler; unknown sheets are attempted as SP campaign sheets. -/
def processSheet (reportDate : String) (sheetName : String)
    (rows : List SheetRow) : List AdvertisingBulkRow :=
  let lowerName := toLowerStr sheetName
  if strIncludes lowerName "sponsored products" || strIncludes lowerName "sp campaigns"
      || lowerName = "sp" then
    processCampaignSheet "SP" reportDate rows
  else if strIncludes lowerName "sponsored brands" || strIncludes lowerName "sb campaigns"
      || strIncludes lowerName "sb multi" || lowerName = "sb" then
    processCampaignSheet "SB" reportDate rows
  else if strIncludes lowerName "sponsored display" || strIncludes lowerName "sd campaigns"
      || lowerName = "sd" then
    processCampaignSheet "SD" reportDate rows
  else if strIncludes lowerName "search term" then
    let t := if strIncludes lowerName "sp" then "SP"
      else if strIncludes lowerName "sb" then "SB" else "SP"
    processSearchTermSheet t reportDate rows
  else
    processCampaignSheet "SP" reportDate rows

/-- Embedding of `AdvertisingBulkParser.parse`.  The base64/binary decode
of the workbook is abstracted as an `Except`: a failed `XLSX.read` throws
into the catch block, which records a single error at row 0 and keeps the
(empty) data collected so far.  `createResult` is called with
`totalRows := data.length`, and the filename-derived date range is patched
onto the metadata afterwards when present. -/
def advertisingBulkParse (input : Except String Workbook)
    (filename : Option String) (today : String) :
    ParseResult AdvertisingBulkRow :=
  let dateInfo := extractDateFromFilename filename today
  let reportDate := dateInfo.1
  match input with
  | .error msg =>
    createResult ([] : List AdvertisingBulkRow)
      [{ row := 0, field := none,
         message := "Failed to parse Excel file: " ++ msg, rawValue := none }]
      0 dateInfo.2
  | .ok wb =>
    let data := wb.foldl
      (fun acc sheet => acc ++ processSheet reportDate sheet.1 sheet.2) []
    createResult data [] data.length dateInfo.2

/-- The parser invocation of `UploadsService.processUpload`
(uploads.service.ts line 80): `parser.parse(content)` — the upload's
`fileName` is *not* passed to `parse`, so the advertising-bulk parser's
filename date extraction never sees it. -/
def serviceParseAdvertisingBulk (input : Except String Workbook)
    (fileName : Option String) (today : String) :
    ParseResult AdvertisingBulkRow :=
  advertisingBulkParse input none today

/-! ## Advertising-bulk save strategy (`UploadsService.saveAdvertisingBulk`) -/

/-- Shape of the values held in the `dedupMap` of `saveAdvertisingBulk`:
the composite-key fields and descriptive fields of the first row seen for
the key, plus the running metric sums.  (The input rows' own ratio fields
are *not* part of this record.) -/
structure AggRecord where
  client_id : String
  report_date : String
  campaign_id : String
  campaign_name : String
  campaign_type : String
  campaign_status : String
  ad_group_id : String
  ad_group_name : String
  keyword_id : String
  keyword_text : String
  match_type : String
  targeting_type : String
  impressions : ℚ
  clicks : ℚ
  spend : ℚ
  sales : ℚ
  orders : ℚ
  units : ℚ
  data_source_id : String
deriving DecidableEq

/-- A record as chunk-upserted into `advertising_report_metrics`: the
aggregate plus the ratios recomputed after aggregation. -/
structure AdMetricRecord extends AggRecord where
  acos : ℚ
  roas : ℚ
  ctr : ℚ
  cpc : ℚ
  conversion_rate : ℚ
deriving DecidableEq

/-- The string merge key
`` `${clientId}|${row.report_date}|${row.campaign_id}|${row.ad_group_id || ''}|${row.keyword_id || ''}` ``
(for a string `s`, `s || ''` is `s` itself, since `''` is the fallback). -/
def bulkKey (clientId reportDate campaignId adGroupId keywordId : String) : String :=
  clientId ++ "|" ++ reportDate ++ "|" ++ campaignId ++ "|" ++ adGroupId ++ "|" ++ keywordId

/-- Merge key of an input row. -/
def aggKey (clientId : String) (row : AdvertisingBulkRow) : String :=
  bulkKey clientId row.report_date row.campaign_id row.ad_group_id row.keyword_id

/-- First sight of a key: the `dedupMap.set` branch of `saveAdvertisingBulk`
(`row.ad_group_id || ''` and `row.keyword_id || ''` are written via
`strOrElse` to mirror the source; on strings this is the identity). -/
def initAgg (clientId sessionId : String) (row : AdvertisingBulkRow) : AggRecord :=
  { client_id := clientId
    report_date := row.report_date
    campaign_id := row.campaign_id
    campaign_name := row.campaign_name
    campaign_type := row.campaign_type
    campaign_status := row.campaign_status
    ad_group_id := strOrElse row.ad_group_id ""
    ad_group_name := row.ad_group_name
    keyword_id := strOrElse row.keyword_id ""
    keyword_text := row.keyword_text
    match_type := row.match_type
    targeting_type := row.targeting_type
    impressions := row.impressions
    clicks := row.clicks
    spend := row.spend
    sales := row.sales
    orders := row.orders
    units := row.units
    data_source_id := sessionId }

/-- The duplicate branch: metric sums are accumulated, all other fields
kept. -/
def addMetrics (r : AggRecord) (row : AdvertisingBulkRow) : AggRecord :=
  { r with
    impressions := r.impressions + row.impressions
    clicks := r.clicks + row.clicks
    spend := r.spend + row.spend
    sales := r.sales + row.sales
    orders := r.orders + row.orders
    units := r.units + row.units }

/-- Association-list lookup (model of `Map.get`). -/
def lookupKey {α : Type} (k : String) : List (String × α) → Option α
  | [] => none
  | (k', v) :: rest => if k = k' then some v else lookupKey k rest

/-- In-place update of the entry at key `k` (the `Map.set` hit case keeps
the entry's position). -/
def bumpEntry (k : String) (row : AdvertisingBulkRow) (p : String × AggRecord) :
    String × AggRecord :=
  if p.1 = k then (p.1, addMetrics p.2 row) else p

/-- One iteration of the `for (const row of data)` dedup loop:
`Map.set` updates in place on a hit and appends on a miss. -/
def dedupStep (clientId sessionId : String) (acc : List (String × AggRecord))
    (row : AdvertisingBulkRow) : List (String × AggRecord) :=
  let k := aggKey clientId row
  match lookupKey k acc with
  | some _ => acc.map (bumpEntry k row)
  | none => acc ++ [(k, initAgg clientId sessionId row)]

/-- The fully-populated `dedupMap` as an insertion-ordered association
list. -/
def advertisingBulkDedup (clientId sessionId : String)
    (data : List AdvertisingBulkRow) : List (String × AggRecord) :=
  data.foldl (dedupStep clientId sessionId) []

/-- Derived-ratio recomputation applied to each aggregated record
(`acos = spend / sales` when `sales > 0` else `0`, and so on). -/
def finalizeAgg (r : AggRecord) : AdMetricRecord :=
  { r with
    acos := if r.sales > 0 then r.spend / r.sales else 0
    roas := if r.spend > 0 then r.sales / r.spend else 0
    ctr := if r.impressions > 0 then r.clicks / r.impressions else 0
    cpc := if r.clicks > 0 then r.spend / r.clicks else 0
    conversion_rate := if r.clicks > 0 then r.orders / r.clicks else 0 }

/-- The record list `saveAdvertisingBulk` chunk-upserts:
`Array.from(dedupMap.values()).map(finalize)`. -/
def saveAdvertisingBulkRecords (clientId sessionId : String)
    (data : List AdvertisingBulkRow) : List AdMetricRecord :=
  (advertisingBulkDedup clientId sessionId data).map (fun p => finalizeAgg p.2)

/-- The composite business key of an input row as a tuple
(report date, campaign id, ad-group id, keyword id); the client id is fixed
per save call. -/
def quadKey (row : AdvertisingBulkRow) : String × String × String × String :=
  (row.report_date, row.campaign_id, row.ad_group_id, row.keyword_id)

/-- The composite business key of a persisted record. -/
def quadKeyRec (r : AdMetricRecord) : String × String × String × String :=
  (r.report_date, r.campaign_id, r.ad_group_id, r.keyword_id)

/-- A string is free of the `'|'` separator used to build the merge key. -/
def noPipe (s : String) : Bool := s.toList.all (fun c => c ≠ '|')

/-- All merge-key components of a row are free of `'|'`. -/
def rowNoPipe (row : AdvertisingBulkRow) : Bool :=
  noPipe row.report_date && noPipe row.campaign_id &&
  noPipe row.ad_group_id && noPipe row.keyword_id

/-! ## Product performance parser
(`parsers/product-performance.parser.ts`) -/

/-- Embedding of the `ProductPerformanceRow` interface. -/
structure ProductPerformanceRow where
  parent_asin : String
  child_asin : String
  title : String
  sessions : ℚ
  page_views : ℚ
  buy_box_percentage : ℚ
  units_ordered : ℚ
  unit_session_percentage : ℚ
  ordered_product_sales : ℚ
deriving DecidableEq

/-- Row extraction for one data line of the product-performance CSV:
`none` when the cleaned child ASIN is empty (the row errors and is
skipped). -/
def productPerformanceRowOf (values : List String) :
    Option ProductPerformanceRow :=
  let childAsin := cleanString (values.getD 1 "")
  if childAsin = "" then none
  else some
    { parent_asin := strOrElse (cleanString (values.getD 0 "")) childAsin
      child_asin := childAsin
      title := strTake (strOrElse (cleanString (values.getD 2 "")) "Untitled") 500
      sessions := parseIntStr (values.getD 3 "")
      page_views := parseIntStr (values.getD 7 "")
      buy_box_percentage := parsePercentageStr (values.getD 11 "")
      units_ordered := parseIntStr (values.getD 13 "")
      unit_session_percentage := parsePercentageStr (values.getD 15 "")
      ordered_product_sales := parseCurrencyStr (values.getD 17 "") }

/-- The per-line loop of `ProductPerformanceParser.parse`; `i` is the index
into the data lines, so the reported row number is `i + 2`. -/
def productPerformanceGo (i : Nat) :
    List String → List ProductPerformanceRow × List ParseError
  | [] => ([], [])
  | line :: rest =>
    let r := productPerformanceGo (i + 1) rest
    match productPerformanceRowOf (parseCSVLine line) with
    | some row => (row :: r.1, r.2)
    | none =>
      (r.1,
       { row := i + 2, field := some "child_asin",
         message := "Missing child ASIN", rawValue := none } :: r.2)

/-- Embedding of `ProductPerformanceParser.parse`: non-blank lines, one
header line skipped, `createResult` with `totalRows` the number of data
lines. -/
def productPerformanceParse (content : String) :
    ParseResult ProductPerformanceRow :=
  let lines := (splitOnCharStr '\n' content).filter (fun l => trimStr l ≠ "")
  let dataLines := lines.drop 1
  let parsed := productPerformanceGo 0 dataLines
  createResult parsed.1 parsed.2 dataLines.length none

/-- One iteration of `ProductPerformanceParser.deduplicate`: keyed by
`child_asin`, replacing only when the new row's sales strictly exceed the
stored row's. -/
def ppDedupStep (acc : List (String × ProductPerformanceRow))
    (row : ProductPerformanceRow) : List (String × ProductPerformanceRow) :=
  match lookupKey row.child_asin acc with
  | none => acc ++ [(row.child_asin, row)]
  | some existing =>
    if row.ordered_product_sales > existing.ordered_product_sales then
      acc.map (fun p => if p.1 = row.child_asin then (p.1, row) else p)
    else acc

/-- Embedding of `ProductPerformanceParser.deduplicate`. -/
def ppDeduplicate (data : List ProductPerformanceRow) :
    List ProductPerformanceRow :=
  (data.foldl ppDedupStep []).map (fun p => p.2)

/-! ## Search terms parser (`parsers/search-terms.parser.ts`) -/

/-- Embedding of the `SearchTermRow` interface. -/
structure SearchTermRow where
  search_term : String
  search_query_score : ℚ
  search_query_volume : ℚ
  impressions_total : ℚ
  impressions_brand : ℚ
  impressions_brand_share : ℚ
  clicks_total : ℚ
  clicks_brand : ℚ
  clicks_brand_share : ℚ
  purchases_total : ℚ
  purchases_brand : ℚ
  purchases_brand_share : ℚ
  reporting_date : String
deriving DecidableEq

/-- The dedup key `` `${row.search_term}|${row.reporting_date}` `` of
`SearchTermsParser.deduplicate`. -/
def stKey (row : SearchTermRow) : String :=
  row.search_term ++ "|" ++ row.reporting_date

/-- One iteration of `SearchTermsParser.deduplicate`: first occurrence of a
key wins; later rows with the same key are dropped. -/
def stDedupStep (acc : List (String × SearchTermRow)) (row : SearchTermRow) :
    List (String × SearchTermRow) :=
  match lookupKey (stKey row) acc with
  | some _ => acc
  | none => acc ++ [(stKey row, row)]

/-- Embedding of `SearchTermsParser.deduplicate`. -/
def stDeduplicate (data : List SearchTermRow) : List SearchTermRow :=
  (data.foldl stDedupStep []).map (fun p => p.2)

/-! ## Advertising report parser and column resolver
(`parsers/advertising-report.parser.ts`) -/

/-- The semantic-key → header-variant dictionary of
`AdvertisingReportParser.buildColumnMap`, in source (insertion) order. -/
def advMappings : List (String × List String) :=
  [("date", ["date", "report date", "day"]),
   ("campaign_id", ["campaign id", "campaignid"]),
   ("campaign_name", ["campaign name", "campaignname", "campaign"]),
   ("campaign_type", ["campaign type", "type"]),
   ("campaign_status", ["campaign status", "status", "state"]),
   ("ad_group_id", ["ad group id", "adgroupid"]),
   ("ad_group_name", ["ad group name", "adgroupname", "ad group"]),
   ("keyword_id", ["keyword id", "keywordid"]),
   ("keyword_text", ["keyword", "keyword text", "search term", "targeting"]),
   ("match_type", ["match type", "matchtype"]),
   ("targeting_type", ["targeting type", "targeting"]),
   ("impressions", ["impressions", "impr"]),
   ("clicks", ["clicks"]),
   ("spend", ["spend", "cost"]),
   ("sales", ["sales", "7 day total sales", "14 day total sales", "total sales"]),
   ("orders", ["orders", "7 day total orders", "14 day total orders", "total orders"]),
   ("units", ["units", "7 day total units", "14 day total units", "total units"])]

/-- Does the (lowercased, trimmed) header match one of the variants? -/
def variantsMatch (variants : List String) (header : String) : Bool :=
  variants.any (fun v => strIncludes header v)

/-- The inner `for (const [key, variants] of Object.entries(mappings))`
loop for the header at column `i`: a key is bound to `i` only when some
variant occurs in the header and the key is not already bound. -/
def bindKeysStep (ms : List (String × List String)) (i : Nat) (header : String)
    (cm : List (String × Nat)) : List (String × Nat) :=
  ms.foldl
    (fun cm kv =>
      if variantsMatch kv.2 (trimStr (toLowerStr header)) ∧ lookupKey kv.1 cm = none
      then cm ++ [(kv.1, i)] else cm)
    cm

/-- The outer `for (let i = 0; i < headers.length; i++)` loop, carried out
from column index `i`. -/
def buildCMGo (ms : List (String × List String)) (i : Nat) :
    List String → List (String × Nat) → List (String × Nat)
  | [], cm => cm
  | h :: hs, cm => buildCMGo ms (i + 1) hs (bindKeysStep ms i h cm)

/-- Embedding of `buildColumnMap` (for a generic dictionary; the
advertising-report parser instantiates it with `advMappings`). -/
def buildColumnMap (ms : List (String × List String)) (headers : List String) :
    List (String × Nat) :=
  buildCMGo ms 0 headers []

/-- Embedding of `AdvertisingReportParser.getColumn`: the cleaned cell at
the bound index, or `""` when the key is unbound or
`index >= values.length`. -/
def getColumn (cm : List (String × Nat)) (values : List String) (key : String) :
    String :=
  match lookupKey key cm with
  | none => ""
  | some index =>
    if values.length ≤ index then "" else cleanString (values.getD index "")

/-- Whether the header at a column satisfies semantic key `key` of
dictionary `ms`: some entry of the dictionary for that key has a variant
contained in the lowercased, trimmed header. -/
def keyMatchesHeader (ms : List (String × List String)) (key header : String) :
    Bool :=
  ms.any (fun kv => kv.1 == key && variantsMatch kv.2 (trimStr (toLowerStr header)))

/-- Embedding of `AdvertisingReportParser.detectCampaignType`. -/
def detectCampaignType (explicitType campaignName : String) : String :=
  if explicitType ≠ "" then toUpperStr explicitType
  else
    let name := toLowerStr campaignName
    if strIncludes name "sponsored brand" || strIncludes name " sb " then "SB"
    else if strIncludes name "sponsored display" || strIncludes name " sd " then "SD"
    else "SP"

/-- Embedding of the `AdvertisingReportRow` interface. -/
structure AdvertisingReportRow where
  report_date : String
  campaign_id : String
  campaign_name : String
  campaign_type : String
  campaign_status : String
  ad_group_id : String
  ad_group_name : String
  keyword_id : String
  keyword_text : String
  match_type : String
  targeting_type : String
  impressions : ℚ
  clicks : ℚ
  spend : ℚ
  sales : ℚ
  orders : ℚ
  units : ℚ
  acos : ℚ
  roas : ℚ
  ctr : ℚ
  cpc : ℚ
  conversion_rate : ℚ
deriving DecidableEq

/-- Row extraction for one data line of the advertising report: `none`
when the campaign id is empty (a `Missing Campaign ID` error is recorded
and the row is skipped); otherwise the coerced fields with the guarded
derived metrics. -/
def advReportRowOf (cm : List (String × Nat)) (today : String)
    (values : List String) : Option AdvertisingReportRow :=
  let campaignId := getColumn cm values "campaign_id"
  if campaignId = "" then none
  else
    let reportDate := strOrElse (parseDate (getColumn cm values "date")) today
    let impressions := parseIntStr (getColumn cm values "impressions")
    let clicks := parseIntStr (getColumn cm values "clicks")
    let spend := parseCurrencyStr (getColumn cm values "spend")
    let sales := parseCurrencyStr (getColumn cm values "sales")
    let orders := parseIntStr (getColumn cm values "orders")
    some
      { report_date := reportDate
        campaign_id := campaignId
        campaign_name := getColumn cm values "campaign_name"
        campaign_type := detectCampaignType (getColumn cm values "campaign_type")
          (getColumn cm values "campaign_name")
        campaign_status := getColumn cm values "campaign_status"
        ad_group_id := getColumn cm values "ad_group_id"
        ad_group_name := getColumn cm values "ad_group_name"
        keyword_id := getColumn cm values "keyword_id"
        keyword_text := getColumn cm values "keyword_text"
        match_type := getColumn cm values "match_type"
        targeting_type := getColumn cm values "targeting_type"
        impressions := impressions
        clicks := clicks
        spend := spend
        sales := sales
        orders := orders
        units := parseIntStr (getColumn cm values "units")
        acos := if sales > 0 then spend / sales else 0
        roas := if spend > 0 then sales / spend else 0
        ctr := if impressions > 0 then clicks / impressions else 0
        cpc := if clicks > 0 then spend / clicks else 0
        conversion_rate := if clicks > 0 then orders / clicks else 0 }

/-- The per-line loop of `AdvertisingReportParser.parse`: produces the
rows, the errors (row number `i + 2`), and the observed report dates. -/
def advReportGo (cm : List (String × Nat)) (today : String) (i : Nat) :
    List String → List AdvertisingReportRow × List ParseError × List String
  | [] => ([], [], [])
  | line :: rest =>
    let r := advReportGo cm today (i + 1) rest
    match advReportRowOf cm today (parseCSVLine line) with
    | some row => (row :: r.1, r.2.1, row.report_date :: r.2.2)
    | none =>
      (r.1,
       { row := i + 2, field := some "campaign_id",
         message := "Missing Campaign ID", rawValue := none } :: r.2.1,
       r.2.2)

/-- Embedding of `AdvertisingReportParser.parse`. -/
def advertisingReportParse (today : String) (content : String) :
    ParseResult AdvertisingReportRow :=
  let lines := (splitOnCharStr '\n' content).filter (fun l => trimStr l ≠ "")
  if lines.length < 2 then
    createResult [] [] 0 none
  else
    let headers := parseCSVLine (lines.getD 0 "")
    let cm := buildColumnMap advMappings headers
    let dataLines := lines.drop 1
    let parsed := advReportGo cm today 0 dataLines
    createResult parsed.1 parsed.2.1 dataLines.length (extractDateRange parsed.2.2)

/-! ## Upload session lifecycle (`processUpload` and
`ingestion-logger.service.ts`) -/

/-- Session status values of the `upload_sessions` row. -/
inductive SessionStatus where
  | pending
  | processing
  | completed
  | failed
deriving DecidableEq

/-- The session record fields the lifecycle touches. -/
structure SessionRecord where
  status : SessionStatus
  errorMessage : Option String
  recordsProcessed : Option Nat
  recordsInserted : Option Nat
  recordsUpdated : Option Nat
  recordsSkipped : Option Nat
  completedAt : Bool
deriving DecidableEq

/-- The update payload of `updateUploadSession`. -/
structure SessionUpdate where
  status : SessionStatus
  recordsProcessed : Option Nat
  recordsInserted : Option Nat
  recordsUpdated : Option Nat
  recordsSkipped : Option Nat
  errorMessage : Option String

/-- Embedding of `IngestionLoggerService.updateUploadSession`: the status
is always written; counts are written when provided; the error message is
written only when truthy (non-empty); `completed_at` is stamped on entering
a terminal status.  The store write itself never throws (a storage `error`
is logged and swallowed by the source). -/
def updateUploadSession (r : SessionRecord) (u : SessionUpdate) : SessionRecord :=
  { status := u.status
    errorMessage :=
      match u.errorMessage with
      | some m => if m = "" then r.errorMessage else some m
      | none => r.errorMessage
    recordsProcessed := u.recordsProcessed.orElse (fun _ => r.recordsProcessed)
    recordsInserted := u.recordsInserted.orElse (fun _ => r.recordsInserted)
    recordsUpdated := u.recordsUpdated.orElse (fun _ => r.recordsUpdated)
    recordsSkipped := u.recordsSkipped.orElse (fun _ => r.recordsSkipped)
    completedAt := r.completedAt ||
      (u.status = SessionStatus.completed || u.status = SessionStatus.failed) }

/-- Embedding of `markSessionProcessing`. -/
def markSessionProcessing (r : SessionRecord) : SessionRecord :=
  updateUploadSession r
    { status := SessionStatus.processing, recordsProcessed := none,
      recordsInserted := none, recordsUpdated := none, recordsSkipped := none,
      errorMessage := none }

/-- Embedding of `markSessionCompleted`. -/
def markSessionCompleted (r : SessionRecord) (processed inserted : Nat)
    (updated skipped : Option Nat) : SessionRecord :=
  updateUploadSession r
    { status := SessionStatus.completed, recordsProcessed := some processed,
      recordsInserted := some inserted, recordsUpdated := updated,
      recordsSkipped := skipped, errorMessage := none }

/-- Embedding of `markSessionFailed`. -/
def markSessionFailed (r : SessionRecord) (msg : String) : SessionRecord :=
  updateUploadSession r
    { status := SessionStatus.failed, recordsProcessed := none,
      recordsInserted := none, recordsUpdated := none, recordsSkipped := none,
      errorMessage := some msg }

/-- The freshly created session of `createUploadSession`
(`status: 'pending'`). -/
def newSession : SessionRecord :=
  { status := SessionStatus.pending, errorMessage := none,
    recordsProcessed := none, recordsInserted := none, recordsUpdated := none,
    recordsSkipped := none, completedAt := false }

/-- Abstract outcome of `parser.parse`: the data length and the metadata
counts `processUpload` reads. -/
structure ParseOutcome where
  dataLen : Nat
  totalRows : Nat
  skippedRows : Nat
  errorsLen : Nat

/-- One awaited step of `processUpload` either returns a value or throws
(rejects) with an error message.  The environment fixes the outcome of
every step, so a theorem quantified over it covers every combination of
success and failure of the parse, persist, audit-log and completion
steps. -/
structure StepOutcomes where
  markProcessing : Except String Unit
  resolveParser : Except String Unit
  parse : Except String ParseOutcome
  save : Except String (Nat × Option Nat)
  logIngestion : Except String Unit
  complete : Except String Unit

/-- The response shape of a successful `processUpload`. -/
structure UploadResultModel where
  success : Bool
  inserted : Nat
  updated : Option Nat
  skipped : Nat
  errorCount : Nat
deriving DecidableEq

/-- The catch block of `processUpload`: mark the session failed with
`error.message || 'Unknown error'` (then the exception is re-thrown). -/
def catchFail (s : SessionRecord) (msg : String) : SessionRecord :=
  markSessionFailed s (if msg = "" then "Unknown error" else msg)

/-- Embedding of the control flow of `UploadsService.processUpload` after
session creation: mark processing, resolve the parser, parse, then either
the zero-row early completion or save → audit log → completion; any step's
exception flows to the catch block, which marks the session failed and
re-raises. -/
def processUploadModel (env : StepOutcomes) :
    Except String UploadResultModel × SessionRecord :=
  match env.markProcessing with
  | .error e => (.error e, catchFail newSession e)
  | .ok _ =>
    let s1 := markSessionProcessing newSession
    match env.resolveParser with
    | .error e => (.error e, catchFail s1 e)
    | .ok _ =>
      match env.parse with
      | .error e => (.error e, catchFail s1 e)
      | .ok pr =>
        match pr.dataLen with
        | 0 =>
          match env.complete with
          | .error e => (.error e, catchFail s1 e)
          | .ok _ =>
            (.ok { success := true, inserted := 0, updated := none,
                   skipped := pr.skippedRows, errorCount := pr.errorsLen },
             markSessionCompleted s1 pr.totalRows 0 none (some pr.skippedRows))
        | _ + 1 =>
          match env.save with
          | .error e => (.error e, catchFail s1 e)
          | .ok saveResult =>
            match env.logIngestion with
            | .error e => (.error e, catchFail s1 e)
            | .ok _ =>
              match env.complete with
              | .error e => (.error e, catchFail s1 e)
              | .ok _ =>
                (.ok { success := true, inserted := saveResult.1,
                       updated := saveResult.2, skipped := pr.skippedRows,
                       errorCount := pr.errorsLen },
                 markSessionCompleted s1 pr.totalRows saveResult.1
                   saveResult.2 (some pr.skippedRows))

/-! ## Helper lemmas -/

theorem natToDigits_ne_nil (n : Nat) : natToDigits n ≠ [] := by
  unfold natToDigits natDigitsAux
  split
  · simp
  · simp

theorem numToStr_ne_empty (q : ℚ) : numToStr q ≠ "" := by
  unfold numToStr
  have h := natToDigits_ne_nil q.num.natAbs
  split <;> split <;>
    simp_all [String.ext_iff, String.data_append, String.mk]

theorem lookupKey_append {α : Type} (k : String) (l1 l2 : List (String × α)) :
    lookupKey k (l1 ++ l2) =
      match lookupKey k l1 with
      | some v => some v
      | none => lookupKey k l2 := by
  induction l1 with
  | nil => simp [lookupKey]
  | cons p t ih =>
    obtain ⟨k', v⟩ := p
    by_cases h : k = k' <;> simp [lookupKey, h, ih]

theorem lookupKey_eq_none_iff {α : Type} (k : String) (l : List (String × α)) :
    lookupKey k l = none ↔ k ∉ l.map Prod.fst := by
  induction l with
  | nil => simp [lookupKey]
  | cons p t ih =>
    obtain ⟨k', v⟩ := p
    by_cases h : k = k' <;> simp [lookupKey, h, ih]

theorem mem_of_lookupKey {α : Type} {k : String} {v : α}
    {l : List (String × α)} (h : lookupKey k l = some v) : (k, v) ∈ l := by
  induction l with
  | nil => simp [lookupKey] at h
  | cons p t ih =>
    obtain ⟨k', v'⟩ := p
    by_cases hk : k = k'
    · subst hk
      simp [lookupKey] at h
      simp [h]
    · simp [lookupKey, hk] at h
      exact List.mem_cons_of_mem _ (ih h)

theorem jsStrOr_eq_empty_iff (v : CellValue) :
    jsStrOr v = "" ↔ cellFalsy v = true := by
  cases v with
  | empty => simp [jsStrOr, cellFalsy]
  | num q =>
    by_cases h : q = 0 <;>
      simp [jsStrOr, cellFalsy, cellRender, h, numToStr_ne_empty]
  | str s =>
    by_cases h : s = "" <;> simp [jsStrOr, cellFalsy, cellRender, h]

/-! ## C7: silent row skipping in advertising-bulk campaign sheets -/

/-- A sheet row carrying impressions but no `Campaign ID` cell. -/
def impressionsOnlyRow : SheetRow :=
  fun c => if c = "Impressions" then CellValue.num 5 else CellValue.empty

/-- C7 counterexample: the claim says every row with a nonzero impressions
value is treated as a data row, but a campaign-sheet row with
`Impressions = 5` and no `Campaign ID` passes the header-row check and is
then silently dropped by the `if (!campaignId) continue` check, producing
no output row (and `processCampaignSheet` records no `ParseError` at
all). -/
theorem campaign_sheet_skip_counterexample :
    processCampaignSheet "SP" "2025-01-01" [impressionsOnlyRow] = [] ∧
    parseNumber (impressionsOnlyRow "Impressions") ≠ 0 := by
  constructor
  · decide
  · decide

/-- C7 (amended): within an advertising-bulk campaign sheet a row is
silently skipped exactly when its `Campaign ID` cell is falsy (absent,
empty string, or the number 0) — rows lacking both impressions and a
Campaign ID fall to the header-row check, and rows with impressions but a
falsy Campaign ID fall to the campaign-id check; every row whose
`Campaign ID` is truthy produces exactly one data row, in order. -/
theorem campaign_sheet_skip_iff_no_campaign_id
    (campaignType reportDate : String) (rows : List SheetRow) :
    processCampaignSheet campaignType reportDate rows =
      (rows.filter (fun r => !cellFalsy (r "Campaign ID"))).map
        (mkCampaignRow campaignType reportDate) := by
  induction rows with
  | nil => simp [processCampaignSheet]
  | cons r rest ih =>
    by_cases hf : cellFalsy (r "Campaign ID")
    · have hempty : jsStrOr (r "Campaign ID") = "" := (jsStrOr_eq_empty_iff _).mpr hf
      by_cases hi : parseNumber (r "Impressions") = 0
      · simp [processCampaignSheet, hi, hf, hempty, ih]
      · simp [processCampaignSheet, hi, hf, hempty, ih]
    · have hne : ¬jsStrOr (r "Campaign ID") = "" := by
        rw [jsStrOr_eq_empty_iff]
        simp [hf]
      simp [processCampaignSheet, hf, hne, ih]

/-! ## C6: percentage normalisation in the advertising-bulk parser -/

unseal Rat.add Rat.mul Rat.inv in
/-- C6 counterexample: the claim quantifies over every percentage-valued
cell, but a *string-typed* cell `"0.25"` is parsed after stripping `%` and
never scaled: it normalises to `1/4`, not to `25` as the
multiply-when-below-one rule would demand (`0.25 < 1`). -/
theorem percentage_string_cell_counterexample :
    parsePercentageValue (CellValue.str "0.25") = mkRat 1 4 ∧
    parsePercentageValue (CellValue.str "0.25") ≠ 25 ∧
    mkRat 1 4 < 1 := by
  refine ⟨by decide, by decide, by decide⟩

unseal Rat.add Rat.mul Rat.inv in
/-- C6 (amended): for every *numeric* percentage-valued cell the normalised
value is the raw value multiplied by 100 exactly when the raw value is less
than 1, and the raw value unchanged otherwise: a numeric cell `0.25`
normalises to `25` and a numeric cell `25` stays `25`.  String-typed cells
are parsed after stripping a `%` sign and are never scaled. -/
theorem percentage_numeric_cell_normalisation :
    (∀ q : ℚ, parsePercentageValue (CellValue.num q) =
      if q < 1 then q * 100 else q) ∧
    parsePercentageValue (CellValue.num (mkRat 1 4)) = 25 ∧
    parsePercentageValue (CellValue.num 25) = 25 := by
  refine ⟨fun q => rfl, by decide, by decide⟩

/-! ## C2: session terminal-state guarantee -/

theorem catchFail_status (s : SessionRecord) (e : String) :
    (catchFail s e).status = SessionStatus.failed := rfl

theorem catchFail_errorMessage (s : SessionRecord) (e : String) :
    ∃ m, (catchFail s e).errorMessage = some m ∧ m ≠ "" := by
  by_cases h : e = ""
  · exact ⟨"Unknown error", by simp [catchFail, markSessionFailed, updateUploadSession, h], by simp⟩
  · exact ⟨e, by simp [catchFail, markSessionFailed, updateUploadSession, h], h⟩

/-- C2: for every combination of step outcomes (each awaited step of
`processUpload` may throw), if any exception is raised between parser
resolution and session completion then the session is marked `failed` with
a non-empty error message and the same exception is re-raised; the session
never finishes the call in status `processing`. -/
theorem session_terminal_state_guarantee (env : StepOutcomes) :
    (processUploadModel env).2.status ≠ SessionStatus.processing ∧
    (∀ e, (processUploadModel env).1 = Except.error e →
      (processUploadModel env).2.status = SessionStatus.failed ∧
      ∃ m, (processUploadModel env).2.errorMessage = some m ∧ m ≠ "") := by
  obtain ⟨mp, rp, pa, sv, lg, cp⟩ := env
  have hfail : ∀ (s : SessionRecord) (e : String),
      (catchFail s e).status = SessionStatus.failed ∧
      ∃ m, (catchFail s e).errorMessage = some m ∧ m ≠ "" :=
    fun s e => ⟨catchFail_status s e, catchFail_errorMessage s e⟩
  cases mp with
  | error e =>
    exact ⟨by simp [processUploadModel, catchFail_status], fun e' _ => hfail _ _⟩
  | ok u1 =>
    cases rp with
    | error e =>
      exact ⟨by simp [processUploadModel, catchFail_status], fun e' _ => hfail _ _⟩
    | ok u2 =>
      cases pa with
      | error e =>
        exact ⟨by simp [processUploadModel, catchFail_status], fun e' _ => hfail _ _⟩
      | ok pr =>
        obtain ⟨n, tot, skip, errs⟩ := pr
        cases n with
        | zero =>
          cases cp with
          | error e =>
            exact ⟨by simp [processUploadModel, catchFail_status], fun e' _ => hfail _ _⟩
          | ok u3 =>
            exact ⟨by simp [processUploadModel, markSessionCompleted, updateUploadSession],
              fun e' he' => nomatch he'⟩
        | succ n =>
          cases sv with
          | error e =>
            exact ⟨by simp [processUploadModel, catchFail_status], fun e' _ => hfail _ _⟩
          | ok saveResult =>
            cases lg with
            | error e =>
              exact ⟨by simp [processUploadModel, catchFail_status], fun e' _ => hfail _ _⟩
            | ok u4 =>
              cases cp with
              | error e =>
                exact ⟨by simp [processUploadModel, catchFail_status], fun e' _ => hfail _ _⟩
              | ok u5 =>
                exact ⟨by simp [processUploadModel, markSessionCompleted, updateUploadSession],
                  fun e' he' => nomatch he'⟩

/-- An outcome environment where persistence fails. -/
def failingSaveEnv : StepOutcomes :=
  { markProcessing := Except.ok ()
    resolveParser := Except.ok ()
    parse := Except.ok { dataLen := 5, totalRows := 5, skippedRows := 0, errorsLen := 0 }
    save := Except.error "Database error: connection reset"
    logIngestion := Except.ok ()
    complete := Except.ok () }

/-- Witness for C2: a run whose save step throws ends with a `failed`
session carrying a non-empty error message. -/
theorem session_terminal_state_guarantee_witness :
    (processUploadModel failingSaveEnv).2.status = SessionStatus.failed ∧
    (∃ m, (processUploadModel failingSaveEnv).2.errorMessage = some m ∧ m ≠ "") ∧
    (processUploadModel failingSaveEnv).2.status ≠ SessionStatus.processing := by
  have h := session_terminal_state_guarantee failingSaveEnv
  have h2 := h.2 "Database error: connection reset" rfl
  exact ⟨h2.1, h2.2, h.1⟩

/-! ## C5: filename date extraction for advertising-bulk uploads -/

/-- A minimal campaign-sheet data row (a campaign id and ten
impressions). -/
def bulkDataRow : SheetRow :=
  fun c =>
    if c = "Campaign ID" then CellValue.str "c1"
    else if c = "Impressions" then CellValue.num 10
    else CellValue.empty

/-- A one-sheet workbook whose sheet name classifies as Sponsored
Products. -/
def bulkSampleWorkbook : Workbook :=
  [("Sponsored Products Campaigns", [bulkDataRow])]

/-- C5 (code bug): the parser itself extracts the `20250101-20250131` range
from the filename — every row gets report date `2025-01-31` and the
metadata carries the range, with fallback to the current date when the
pattern is absent — but `processUpload` invokes `parser.parse(content)`
without the filename (uploads.service.ts line 80), so through the service
the same upload is dated with the current date and stores no range. -/
theorem bulk_filename_date_extraction_vs_service :
    ((advertisingBulkParse (Except.ok bulkSampleWorkbook)
        (some "bulk-xyz-20250101-20250131-abc.xlsx") "2026-02-03").data.map
      (fun r => r.report_date) = ["2025-01-31"]) ∧
    ((advertisingBulkParse (Except.ok bulkSampleWorkbook)
        (some "bulk-xyz-20250101-20250131-abc.xlsx") "2026-02-03").metadata.dateRange =
      some ("2025-01-01", "2025-01-31")) ∧
    ((advertisingBulkParse (Except.ok bulkSampleWorkbook)
        (some "bulk-abc.xlsx") "2026-02-03").data.map
      (fun r => r.report_date) = ["2026-02-03"]) ∧
    ((serviceParseAdvertisingBulk (Except.ok bulkSampleWorkbook)
        (some "bulk-xyz-20250101-20250131-abc.xlsx") "2026-02-03").data.map
      (fun r => r.report_date) = ["2026-02-03"]) ∧
    ((serviceParseAdvertisingBulk (Except.ok bulkSampleWorkbook)
        (some "bulk-xyz-20250101-20250131-abc.xlsx") "2026-02-03").metadata.dateRange =
      none) := by
  refine ⟨by decide, by decide, by decide, by decide, by decide⟩

/-! ## C10: advertising-bulk metadata counts versus delimited parsers -/

/-- A wholly empty sheet row: skipped silently by the campaign-sheet
loop. -/
def blankSheetRow : SheetRow := fun _ => CellValue.empty

/-- A row with a campaign id and no metrics: kept by the campaign-sheet
loop. -/
def plainCampaignRow : SheetRow :=
  fun c => if c = "Campaign ID" then CellValue.str "c9" else CellValue.empty

/-- A workbook in which one of the two sheet rows is silently skipped. -/
def skippingWorkbook : Workbook :=
  [("SP Campaigns", [blankSheetRow, plainCampaignRow])]

/-- A product-performance CSV with one valid data row and one data row
missing its child ASIN. -/
def ppSampleContent : String := "header\nP1,C1\nP2"

/-- C10: the advertising-bulk parser calls `createResult(data, data.length)`,
so its metadata always reports `totalRows = parsedRows = data.length` and
`skippedRows = 0` — even on a workbook where a sheet row was silently
dropped — unlike a delimited-text parser such as product performance, whose
`totalRows` counts all data lines (here 2 lines, 1 parsed, 1 skipped). -/
theorem bulk_metadata_counts_extracted_rows :
    (∀ (input : Except String Workbook) (filename : Option String) (today : String),
      (advertisingBulkParse input filename today).metadata.totalRows =
        (advertisingBulkParse input filename today).data.length ∧
      (advertisingBulkParse input filename today).metadata.parsedRows =
        (advertisingBulkParse input filename today).data.length ∧
      (advertisingBulkParse input filename today).metadata.skippedRows = 0) ∧
    ((advertisingBulkParse (Except.ok skippingWorkbook) none "2026-02-03").data.length = 1 ∧
     (advertisingBulkParse (Except.ok skippingWorkbook) none "2026-02-03").metadata.totalRows = 1 ∧
     (advertisingBulkParse (Except.ok skippingWorkbook) none "2026-02-03").metadata.skippedRows = 0) ∧
    ((productPerformanceParse ppSampleContent).metadata.totalRows = 2 ∧
     (productPerformanceParse ppSampleContent).metadata.parsedRows = 1 ∧
     (productPerformanceParse ppSampleContent).metadata.skippedRows = 1) := by
  refine ⟨?_, ⟨by decide, by decide, by decide⟩, ⟨by decide, by decide, by decide⟩⟩
  intro input filename today
  cases input <;> simp [advertisingBulkParse, createResult]

/-! ## C3: product-performance deduplication keeps the highest sales -/

theorem lookupKey_of_mem_nodup {α : Type} {l : List (String × α)}
    (hn : (l.map Prod.fst).Nodup) {p : String × α} (hp : p ∈ l) :
    lookupKey p.1 l = some p.2 := by
  induction l with
  | nil => simp at hp
  | cons q t ih =>
    obtain ⟨q1, q2⟩ := q
    simp only [List.map_cons, List.nodup_cons] at hn
    rcases List.mem_cons.mp hp with h | h
    · subst h
      simp [lookupKey]
    · have hne : p.1 ≠ q1 := by
        intro hEq
        exact hn.1 (hEq ▸ (List.mem_map.mpr ⟨p, h, rfl⟩))
      simp [lookupKey, hne]
      exact ih hn.2 h

theorem ppStep_keys (acc : List (String × ProductPerformanceRow))
    (row : ProductPerformanceRow) :
    (ppDedupStep acc row).map Prod.fst =
      if row.child_asin ∈ acc.map Prod.fst then acc.map Prod.fst
      else acc.map Prod.fst ++ [row.child_asin] := by
  cases hl : lookupKey row.child_asin acc with
  | none =>
    have hmem := (lookupKey_eq_none_iff _ _).mp hl
    simp only [ppDedupStep, hl]
    simp [hmem]
  | some existing =>
    have hmem : row.child_asin ∈ acc.map Prod.fst :=
      List.mem_map.mpr ⟨(row.child_asin, existing), mem_of_lookupKey hl, rfl⟩
    simp only [ppDedupStep, hl, hmem, if_true]
    split
    · rw [List.map_map]
      apply List.map_congr_left
      intro p _
      by_cases h : p.1 = row.child_asin <;> simp [h]
    · rfl

theorem ppStep_mem {acc : List (String × ProductPerformanceRow)}
    {row : ProductPerformanceRow} {p : String × ProductPerformanceRow}
    (h : p ∈ ppDedupStep acc row) : p ∈ acc ∨ p.2 = row := by
  cases hl : lookupKey row.child_asin acc with
  | none =>
    simp only [ppDedupStep, hl] at h
    rcases List.mem_append.mp h with h | h
    · exact Or.inl h
    · simp at h
      subst h
      exact Or.inr rfl
  | some existing =>
    simp only [ppDedupStep, hl] at h
    split at h
    · obtain ⟨q, hq, hq2⟩ := List.mem_map.mp h
      by_cases hk : q.1 = row.child_asin
      · simp [hk] at hq2
        subst hq2
        exact Or.inr rfl
      · simp [hk] at hq2
        subst hq2
        exact Or.inl hq
    · exact Or.inl h

theorem ppStep_keyed {acc : List (String × ProductPerformanceRow)}
    {row : ProductPerformanceRow}
    (hk : ∀ p ∈ acc, p.2.child_asin = p.1) :
    ∀ p ∈ ppDedupStep acc row, p.2.child_asin = p.1 := by
  intro p hp
  cases hl : lookupKey row.child_asin acc with
  | none =>
    simp only [ppDedupStep, hl] at hp
    rcases List.mem_append.mp hp with h | h
    · exact hk p h
    · simp at h
      subst h
      rfl
  | some existing =>
    simp only [ppDedupStep, hl] at hp
    split at hp
    · obtain ⟨q, hq, hq2⟩ := List.mem_map.mp hp
      by_cases hkey : q.1 = row.child_asin
      · simp [hkey] at hq2
        subst hq2
        simpa using hkey
      · simp [hkey] at hq2
        subst hq2
        exact hk q hq
    · exact hk p hp

theorem ppStep_transfer {acc : List (String × ProductPerformanceRow)}
    {row : ProductPerformanceRow}
    (hn : (acc.map Prod.fst).Nodup) :
    ∀ q ∈ acc, ∃ q' ∈ ppDedupStep acc row, q'.1 = q.1 ∧
      q.2.ordered_product_sales ≤ q'.2.ordered_product_sales := by
  intro q hq
  cases hl : lookupKey row.child_asin acc with
  | none =>
    simp only [ppDedupStep, hl]
    exact ⟨q, List.mem_append.mpr (Or.inl hq), rfl, le_refl _⟩
  | some existing =>
    simp only [ppDedupStep, hl]
    by_cases hgt : row.ordered_product_sales > existing.ordered_product_sales
    · rw [if_pos hgt]
      by_cases hk : q.1 = row.child_asin
      · have hlq : lookupKey q.1 acc = some q.2 := lookupKey_of_mem_nodup hn hq
        rw [hk, hl] at hlq
        have hex : existing = q.2 := by injection hlq
        refine ⟨(q.1, row), List.mem_map.mpr ⟨q, hq, by simp [hk]⟩, rfl, ?_⟩
        rw [← hex]
        exact le_of_lt hgt
      · exact ⟨q, List.mem_map.mpr ⟨q, hq, by simp [hk]⟩, rfl, le_refl _⟩
    · rw [if_neg hgt]
      exact ⟨q, hq, rfl, le_refl _⟩

theorem ppStep_row_entry {acc : List (String × ProductPerformanceRow)}
    (row : ProductPerformanceRow) :
    ∃ q' ∈ ppDedupStep acc row, q'.1 = row.child_asin ∧
      row.ordered_product_sales ≤ q'.2.ordered_product_sales := by
  cases hl : lookupKey row.child_asin acc with
  | none =>
    simp only [ppDedupStep, hl]
    exact ⟨(row.child_asin, row), List.mem_append.mpr (Or.inr (by simp)), rfl, le_refl _⟩
  | some existing =>
    simp only [ppDedupStep, hl]
    by_cases hgt : row.ordered_product_sales > existing.ordered_product_sales
    · rw [if_pos hgt]
      refine ⟨(row.child_asin, row),
        List.mem_map.mpr ⟨(row.child_asin, existing), mem_of_lookupKey hl, by simp⟩,
        rfl, le_refl _⟩
    · rw [if_neg hgt]
      exact ⟨(row.child_asin, existing), mem_of_lookupKey hl, rfl, le_of_not_lt hgt⟩

theorem ppFoldInv (data : List ProductPerformanceRow) :
    ∀ acc : List (String × ProductPerformanceRow),
    (acc.map Prod.fst).Nodup → (∀ p ∈ acc, p.2.child_asin = p.1) →
    ((data.foldl ppDedupStep acc).map Prod.fst).Nodup ∧
    (∀ p ∈ data.foldl ppDedupStep acc, p.2.child_asin = p.1) ∧
    (∀ k, k ∈ (data.foldl ppDedupStep acc).map Prod.fst ↔
      k ∈ acc.map Prod.fst ∨ k ∈ data.map ProductPerformanceRow.child_asin) ∧
    (∀ p ∈ data.foldl ppDedupStep acc, p ∈ acc ∨ p.2 ∈ data) ∧
    (∀ p ∈ data.foldl ppDedupStep acc,
      (∀ q ∈ acc, q.1 = p.1 →
        q.2.ordered_product_sales ≤ p.2.ordered_product_sales) ∧
      (∀ row ∈ data, row.child_asin = p.1 →
        row.ordered_product_sales ≤ p.2.ordered_product_sales)) := by
  induction data with
  | nil =>
    intro acc hn hk
    refine ⟨hn, hk, by simp, by simp, ?_⟩
    intro p hp
    refine ⟨fun q hq hq1 => ?_, by simp⟩
    simp only [List.foldl_nil] at hp
    have h1 := lookupKey_of_mem_nodup hn hq
    have h2 := lookupKey_of_mem_nodup hn hp
    rw [hq1] at h1
    rw [h1] at h2
    have : q.2 = p.2 := by injection h2
    rw [this]
  | cons row rest ih =>
    intro acc hn hk
    simp only [List.foldl_cons]
    have hn' : ((ppDedupStep acc row).map Prod.fst).Nodup := by
      rw [ppStep_keys]
      split
      · exact hn
      case isFalse hmem => simpa using List.Nodup.append hn (by simp) (by simpa using hmem)
    have hk' : ∀ p ∈ ppDedupStep acc row, p.2.child_asin = p.1 := ppStep_keyed hk
    obtain ⟨jn, jk, jcov, jprov, jdom⟩ := ih (ppDedupStep acc row) hn' hk'
    refine ⟨jn, jk, ?_, ?_, ?_⟩
    · intro k
      rw [jcov k, ppStep_keys]
      by_cases hmem : row.child_asin ∈ acc.map Prod.fst
      · rw [if_pos hmem]
        simp only [List.map_cons, List.mem_cons]
        constructor
        · rintro (h | h)
          · exact Or.inl h
          · exact Or.inr (Or.inr h)
        · rintro (h | h | h)
          · exact Or.inl h
          · subst h
            exact Or.inl hmem
          · exact Or.inr h
      · rw [if_neg hmem]
        simp only [List.mem_append, List.mem_singleton, List.map_cons, List.mem_cons]
        tauto
    · intro p hp
      rcases jprov p hp with h | h
      · rcases ppStep_mem h with h2 | h2
        · exact Or.inl h2
        · exact Or.inr (by simp [h2])
      · exact Or.inr (by simp [h])
    · intro p hp
      obtain ⟨hdomAcc, hdomRest⟩ := jdom p hp
      constructor
      · intro q hq hq1
        obtain ⟨q', hq', hq'1, hq'le⟩ := ppStep_transfer hn q hq
        exact le_trans hq'le (hdomAcc q' hq' (hq'1.trans hq1))
      · intro r hr hr1
        rcases List.mem_cons.mp hr with h | h
        · subst h
          obtain ⟨q', hq', hq'1, hq'le⟩ := ppStep_row_entry r
          exact le_trans hq'le (hdomAcc q' hq' (hq'1.trans hr1))
        · exact hdomRest r h hr1

/-- C3: `deduplicate` of the product-performance parser returns exactly one
row per distinct child ASIN — the ASINs of the output are distinct and
cover the input — and each output row is an input row whose
`ordered_product_sales` is maximal among all input rows sharing its child
ASIN. -/
theorem product_performance_dedup_max (data : List ProductPerformanceRow) :
    ((ppDeduplicate data).map (fun r => r.child_asin)).Nodup ∧
    (∀ row ∈ data, ∃ r ∈ ppDeduplicate data, r.child_asin = row.child_asin) ∧
    (∀ r ∈ ppDeduplicate data, r ∈ data ∧
      ∀ row ∈ data, row.child_asin = r.child_asin →
        row.ordered_product_sales ≤ r.ordered_product_sales) := by
  obtain ⟨hn, hk, hcov, hprov, hdom⟩ :=
    ppFoldInv data [] (by simp) (by simp)
  have hmapeq : (data.foldl ppDedupStep []).map (fun p => p.2.child_asin) =
      (data.foldl ppDedupStep []).map Prod.fst :=
    List.map_congr_left (fun p hp => hk p hp)
  refine ⟨?_, ?_, ?_⟩
  · unfold ppDeduplicate
    rw [List.map_map]
    show ((data.foldl ppDedupStep []).map (fun p => p.2.child_asin)).Nodup
    rw [hmapeq]
    exact hn
  · intro row hrow
    have : row.child_asin ∈ (data.foldl ppDedupStep []).map Prod.fst :=
      (hcov row.child_asin).mpr (Or.inr (List.mem_map.mpr ⟨row, hrow, rfl⟩))
    obtain ⟨p, hp, hp1⟩ := List.mem_map.mp this
    exact ⟨p.2, List.mem_map.mpr ⟨p, hp, rfl⟩, by rw [hk p hp, hp1]⟩
  · intro r hr
    obtain ⟨p, hp, hp2⟩ := List.mem_map.mp hr
    subst hp2
    constructor
    · rcases hprov p hp with h | h
      · simp at h
      · exact h
    · intro row hrow hrow1
      exact (hdom p hp).2 row hrow (by rw [hrow1, hk p hp])

/-- Two input rows sharing a child ASIN, with sales 100 and 250. -/
def ppRowA : ProductPerformanceRow :=
  { parent_asin := "P1", child_asin := "B001", title := "t", sessions := 0,
    page_views := 0, buy_box_percentage := 0, units_ordered := 0,
    unit_session_percentage := 0, ordered_product_sales := 100 }

/-- The higher-sales duplicate of `ppRowA`. -/
def ppRowB : ProductPerformanceRow :=
  { parent_asin := "P1", child_asin := "B001", title := "t", sessions := 0,
    page_views := 0, buy_box_percentage := 0, units_ordered := 0,
    unit_session_percentage := 0, ordered_product_sales := 250 }

/-- Witness for C3: on the two duplicate rows with sales 100 and 250 the
dedup step keeps exactly the row with sales 250. -/
theorem product_performance_dedup_max_witness :
    (∃ r ∈ ppDeduplicate [ppRowA, ppRowB], r.child_asin = ppRowA.child_asin) ∧
    ppDeduplicate [ppRowA, ppRowB] = [ppRowB] := by
  refine ⟨(product_performance_dedup_max [ppRowA, ppRowB]).2.1 ppRowA (by simp), ?_⟩
  decide

/-! ## C4: search-terms deduplication keeps the first occurrence -/

theorem noPipe_not_mem {s : String} (h : noPipe s = true) : '|' ∉ s.data := by
  intro hmem
  rw [noPipe, List.all_eq_true] at h
  have h2 := h '|' (by simpa [String.toList] using hmem)
  simp at h2

theorem pipeSplit (u v : List Char) : ∀ (xs ys : List Char), '|' ∉ xs → '|' ∉ ys →
    xs ++ '|' :: u = ys ++ '|' :: v → xs = ys ∧ u = v := by
  intro xs
  induction xs with
  | nil =>
    intro ys hx hy h
    cases ys with
    | nil => simpa using h
    | cons y t =>
      simp only [List.nil_append, List.cons_append, List.cons.injEq] at h
      cases h.1
      exact absurd (List.mem_cons_self _ _) hy
  | cons x xs ih =>
    intro ys hx hy h
    cases ys with
    | nil =>
      simp only [List.cons_append, List.nil_append, List.cons.injEq] at h
      rw [h.1] at hx
      exact absurd (List.mem_cons_self _ _) hx
    | cons y t =>
      simp only [List.cons_append, List.cons.injEq] at h
      have hx' : '|' ∉ xs := fun hm => hx (List.mem_cons_of_mem _ hm)
      have hy' : '|' ∉ t := fun hm => hy (List.mem_cons_of_mem _ hm)
      obtain ⟨h1, h2⟩ := ih t hx' hy' h.2
      exact ⟨by rw [h.1, h1], h2⟩

theorem strData_pipe (a b : String) :
    (a ++ "|" ++ b).data = a.data ++ '|' :: b.data := by
  show (a.data ++ "|".data) ++ b.data = a.data ++ '|' :: b.data
  rw [List.append_assoc]
  rfl

theorem pipe2_inj {a b a' b' : String} (ha : noPipe a = true)
    (ha' : noPipe a' = true) (h : a ++ "|" ++ b = a' ++ "|" ++ b') :
    a = a' ∧ b = b' := by
  have hd : (a ++ "|" ++ b).data = (a' ++ "|" ++ b').data := by rw [h]
  rw [strData_pipe, strData_pipe] at hd
  obtain ⟨h1, h2⟩ :=
    pipeSplit b.data b'.data a.data a'.data (noPipe_not_mem ha) (noPipe_not_mem ha') hd
  exact ⟨String.ext h1, String.ext h2⟩

theorem find?_congr_mem {α : Type} {p q : α → Bool} :
    ∀ (l : List α), (∀ x ∈ l, p x = q x) → l.find? p = l.find? q := by
  intro l
  induction l with
  | nil => intro _; rfl
  | cons a t ih =>
    intro h
    have ha := h a (List.mem_cons_self _ _)
    by_cases hp : p a = true
    · rw [List.find?_cons_of_pos _ hp, List.find?_cons_of_pos _ (ha ▸ hp)]
    · have hp' : p a = false := by simpa using hp
      rw [List.find?_cons_of_neg _ (by simp [hp']),
        List.find?_cons_of_neg _ (by simp [← ha, hp'])]
      exact ih (fun x hx => h x (List.mem_cons_of_mem _ hx))

theorem stStep_some {acc : List (String × SearchTermRow)} {row : SearchTermRow}
    {v : SearchTermRow} (hl : lookupKey (stKey row) acc = some v) :
    stDedupStep acc row = acc := by
  simp only [stDedupStep, hl]

theorem stStep_none {acc : List (String × SearchTermRow)} {row : SearchTermRow}
    (hl : lookupKey (stKey row) acc = none) :
    stDedupStep acc row = acc ++ [(stKey row, row)] := by
  simp only [stDedupStep, hl]

theorem stFoldInv (data : List SearchTermRow) :
    ∀ acc : List (String × SearchTermRow),
    (acc.map Prod.fst).Nodup → (∀ p ∈ acc, p.1 = stKey p.2) →
    ((data.foldl stDedupStep acc).map Prod.fst).Nodup ∧
    (∀ p ∈ data.foldl stDedupStep acc, p.1 = stKey p.2) ∧
    (∀ k, k ∈ (data.foldl stDedupStep acc).map Prod.fst ↔
      k ∈ acc.map Prod.fst ∨ k ∈ data.map stKey) ∧
    (∀ p ∈ data.foldl stDedupStep acc, p ∈ acc ∨
      (p.1 ∉ acc.map Prod.fst ∧
        data.find? (fun r => stKey r == p.1) = some p.2)) := by
  induction data with
  | nil =>
    intro acc hn hk
    exact ⟨hn, hk, by simp, fun p hp => Or.inl (by simpa using hp)⟩
  | cons row rest ih =>
    intro acc hn hk
    simp only [List.foldl_cons]
    cases hl : lookupKey (stKey row) acc with
    | some v =>
      rw [stStep_some hl]
      have hmem : stKey row ∈ acc.map Prod.fst :=
        List.mem_map.mpr ⟨(stKey row, v), mem_of_lookupKey hl, rfl⟩
      obtain ⟨jn, jk, jcov, jprov⟩ := ih acc hn hk
      refine ⟨jn, jk, ?_, ?_⟩
      · intro k
        rw [jcov k]
        simp only [List.map_cons, List.mem_cons]
        constructor
        · rintro (h | h)
          · exact Or.inl h
          · exact Or.inr (Or.inr h)
        · rintro (h | h | h)
          · exact Or.inl h
          · subst h
            exact Or.inl hmem
          · exact Or.inr h
      · intro p hp
        rcases jprov p hp with h | ⟨h1, h2⟩
        · exact Or.inl h
        · refine Or.inr ⟨h1, ?_⟩
          have hne : (stKey row == p.1) = false := by
            simp only [beq_eq_false_iff_ne, ne_eq]
            intro hEq
            exact h1 (hEq ▸ hmem)
          rw [List.find?_cons_of_neg _ (by simp [hne])]
          exact h2
    | none =>
      rw [stStep_none hl]
      have hmem : stKey row ∉ acc.map Prod.fst := (lookupKey_eq_none_iff _ _).mp hl
      have hn' : ((acc ++ [(stKey row, row)]).map Prod.fst).Nodup := by
        simpa using List.Nodup.append hn (by simp) (by simpa using hmem)
      have hk' : ∀ p ∈ acc ++ [(stKey row, row)], p.1 = stKey p.2 := by
        intro p hp
        rcases List.mem_append.mp hp with h | h
        · exact hk p h
        · simp at h
          subst h
          rfl
      obtain ⟨jn, jk, jcov, jprov⟩ := ih _ hn' hk'
      refine ⟨jn, jk, ?_, ?_⟩
      · intro k
        rw [jcov k]
        simp only [List.map_append, List.map_cons, List.mem_append, List.mem_cons,
          List.map_nil, List.mem_singleton]
        tauto
      · intro p hp
        rcases jprov p hp with h | ⟨h1, h2⟩
        · rcases List.mem_append.mp h with h | h
          · exact Or.inl h
          · simp at h
            subst h
            refine Or.inr ⟨hmem, ?_⟩
            rw [List.find?_cons_of_pos _ (by simp)]
        · simp only [List.map_append, List.map_cons, List.map_nil, List.mem_append,
            List.mem_singleton] at h1
          push_neg at h1
          refine Or.inr ⟨h1.1, ?_⟩
          have hne : (stKey row == p.1) = false := by
            simp only [beq_eq_false_iff_ne, ne_eq]
            exact fun hEq => h1.2 hEq.symm
          rw [List.find?_cons_of_neg _ (by simp [hne])]
          exact h2

theorem stKey_beq_pair {x r : SearchTermRow} (hx : noPipe x.search_term = true)
    (hr : noPipe r.search_term = true) :
    (x.search_term == r.search_term && x.reporting_date == r.reporting_date) =
      (stKey x == stKey r) := by
  by_cases h1 : stKey x = stKey r
  · obtain ⟨hterm, hdate⟩ := pipe2_inj hx hr h1
    simp [hterm, hdate, h1]
  · have h2 : ¬(x.search_term = r.search_term ∧ x.reporting_date = r.reporting_date) := by
      rintro ⟨ht, hd⟩
      exact h1 (by rw [stKey, stKey, ht, hd])
    have hR : (stKey x == stKey r) = false := beq_eq_false_iff_ne.mpr h1
    rcases not_and_or.mp h2 with h3 | h3
    · have hL : (x.search_term == r.search_term) = false := beq_eq_false_iff_ne.mpr h3
      rw [hL, hR, Bool.false_and]
    · have hL : (x.reporting_date == r.reporting_date) = false := beq_eq_false_iff_ne.mpr h3
      rw [hL, hR, Bool.and_false]

/-- C4 (amended): provided no search term or reporting date contains the
`'|'` character used to build the concatenated dedup key, `deduplicate` of
the search-terms parser returns exactly one row per distinct
(search term, reporting date) key — keys of the output are distinct and
cover the input — and every output row is the *first* input row carrying
its key, in input order (not the highest-value one). -/
theorem search_terms_dedup_first_occurrence (data : List SearchTermRow)
    (h : ∀ r ∈ data, noPipe r.search_term = true ∧ noPipe r.reporting_date = true) :
    ((stDeduplicate data).map (fun r => (r.search_term, r.reporting_date))).Nodup ∧
    (∀ row ∈ data, ∃ r ∈ stDeduplicate data,
      r.search_term = row.search_term ∧ r.reporting_date = row.reporting_date) ∧
    (∀ r ∈ stDeduplicate data,
      data.find? (fun x => x.search_term == r.search_term &&
        x.reporting_date == r.reporting_date) = some r) := by
  obtain ⟨hn, hk, hcov, hprov⟩ := stFoldInv data [] (by simp) (by simp)
  have hmem_data : ∀ p ∈ data.foldl stDedupStep [], p.2 ∈ data := by
    intro p hp
    rcases hprov p hp with hmem | ⟨_, hfind⟩
    · simp at hmem
    · exact List.mem_of_find?_eq_some hfind
  refine ⟨?_, ?_, ?_⟩
  · unfold stDeduplicate
    rw [List.map_map]
    have hmapeq : (data.foldl stDedupStep []).map
        ((fun r => (r.search_term, r.reporting_date)) ∘ Prod.snd) =
        (data.foldl stDedupStep []).map
          (fun p => (p.2.search_term, p.2.reporting_date)) := rfl
    rw [hmapeq]
    have hinj : (data.foldl stDedupStep []).map
        (fun p => p.2.search_term ++ "|" ++ p.2.reporting_date) =
        (data.foldl stDedupStep []).map Prod.fst := by
      apply List.map_congr_left
      intro p hp
      exact (hk p hp).symm
    have : ((data.foldl stDedupStep []).map
        (fun p => p.2.search_term ++ "|" ++ p.2.reporting_date)).Nodup := by
      rw [hinj]
      exact hn
    have hcomp : (data.foldl stDedupStep []).map
        (fun p => p.2.search_term ++ "|" ++ p.2.reporting_date) =
        ((data.foldl stDedupStep []).map
          (fun p => (p.2.search_term, p.2.reporting_date))).map
          (fun q => q.1 ++ "|" ++ q.2) := by
      rw [List.map_map]
      rfl
    rw [hcomp] at this
    exact this.of_map _
  · intro row hrow
    have : stKey row ∈ (data.foldl stDedupStep []).map Prod.fst :=
      (hcov (stKey row)).mpr (Or.inr (List.mem_map.mpr ⟨row, hrow, rfl⟩))
    obtain ⟨p, hp, hp1⟩ := List.mem_map.mp this
    have hkeq : stKey p.2 = stKey row := by rw [← hk p hp, hp1]
    obtain ⟨ht, hd⟩ := pipe2_inj (h p.2 (hmem_data p hp)).1 (h row hrow).1 hkeq
    exact ⟨p.2, List.mem_map.mpr ⟨p, hp, rfl⟩, ht, hd⟩
  · intro r hr
    obtain ⟨p, hp, hp2⟩ := List.mem_map.mp hr
    subst hp2
    rcases hprov p hp with hmem | ⟨_, hfind⟩
    · simp at hmem
    · have hrdata : p.2 ∈ data := List.mem_of_find?_eq_some hfind
      rw [find?_congr_mem data (fun x hx =>
        stKey_beq_pair (h x hx).1 (h p.2 hrdata).1)]
      rw [← hk p hp]
      exact hfind

/-- A search-term row whose term contains the `'|'` separator. -/
def stRowP : SearchTermRow :=
  { search_term := "a|b", search_query_score := 0, search_query_volume := 0,
    impressions_total := 0, impressions_brand := 0, impressions_brand_share := 0,
    clicks_total := 0, clicks_brand := 0, clicks_brand_share := 0,
    purchases_total := 0, purchases_brand := 0, purchases_brand_share := 0,
    reporting_date := "c" }

/-- A search-term row with a different (term, date) pair whose concatenated
key collides with `stRowP`'s. -/
def stRowQ : SearchTermRow :=
  { search_term := "a", search_query_score := 0, search_query_volume := 0,
    impressions_total := 0, impressions_brand := 0, impressions_brand_share := 0,
    clicks_total := 0, clicks_brand := 0, clicks_brand_share := 0,
    purchases_total := 0, purchases_brand := 0, purchases_brand_share := 0,
    reporting_date := "b|c" }

/-- C4 counterexample: the rows `("a|b", "c")` and `("a", "b|c")` carry
*distinct* (search term, reporting date) keys, yet their concatenated
string keys collide (`"a|b|c"`), so `deduplicate` returns only the first
row — the claim's "exactly one row per distinct key" fails, the second
key having no representative in the output. -/
theorem search_terms_dedup_counterexample :
    (stRowP.search_term, stRowP.reporting_date) ≠
      (stRowQ.search_term, stRowQ.reporting_date) ∧
    stDeduplicate [stRowP, stRowQ] = [stRowP] ∧
    ¬∃ r ∈ stDeduplicate [stRowP, stRowQ],
      r.search_term = stRowQ.search_term ∧
      r.reporting_date = stRowQ.reporting_date := by
  refine ⟨by decide, by decide, by decide⟩

/-- Two rows sharing the (term, date) key, the first with score 1, the
second with score 2. -/
def stRowFirst : SearchTermRow :=
  { search_term := "alpha", search_query_score := 1, search_query_volume := 0,
    impressions_total := 0, impressions_brand := 0, impressions_brand_share := 0,
    clicks_total := 0, clicks_brand := 0, clicks_brand_share := 0,
    purchases_total := 0, purchases_brand := 0, purchases_brand_share := 0,
    reporting_date := "2025-01-01" }

/-- The later duplicate of `stRowFirst` (higher score, same key). -/
def stRowSecond : SearchTermRow :=
  { search_term := "alpha", search_query_score := 2, search_query_volume := 0,
    impressions_total := 0, impressions_brand := 0, impressions_brand_share := 0,
    clicks_total := 0, clicks_brand := 0, clicks_brand_share := 0,
    purchases_total := 0, purchases_brand := 0, purchases_brand_share := 0,
    reporting_date := "2025-01-01" }

/-- Witness for C4: on two duplicate-key rows the dedup keeps the first
occurrence (score 1), not the later higher-value row. -/
theorem search_terms_dedup_first_occurrence_witness :
    ([stRowFirst, stRowSecond].find?
      (fun x => x.search_term == stRowFirst.search_term &&
        x.reporting_date == stRowFirst.reporting_date) = some stRowFirst) ∧
    stDeduplicate [stRowFirst, stRowSecond] = [stRowFirst] := by
  refine ⟨(search_terms_dedup_first_occurrence [stRowFirst, stRowSecond]
    (by decide)).2.2 stRowFirst (by decide), by decide⟩

/-! ## C1: advertising-bulk save-strategy aggregation -/

theorem strOrElse_empty (s : String) : strOrElse s "" = s := by
  unfold strOrElse
  split <;> simp_all

/-- The merge key a `dedupMap` entry's stored fields would produce; every
entry's actual key equals it (invariant of the fold). -/
def aggRecordKey (r : AggRecord) : String :=
  bulkKey r.client_id r.report_date r.campaign_id r.ad_group_id r.keyword_id

/-- The composite-key fields stored in a `dedupMap` entry. -/
def aggBaseOf (r : AggRecord) : String × String × String × String × String :=
  (r.client_id, r.report_date, r.campaign_id, r.ad_group_id, r.keyword_id)

theorem aggRecordKey_initAgg (cid sid : String) (row : AdvertisingBulkRow) :
    aggRecordKey (initAgg cid sid row) = aggKey cid row := by
  simp [aggRecordKey, initAgg, aggKey, strOrElse_empty]

theorem aggRecordKey_addMetrics (r : AggRecord) (row : AdvertisingBulkRow) :
    aggRecordKey (addMetrics r row) = aggRecordKey r := rfl

theorem aggBaseOf_addMetrics (r : AggRecord) (row : AdvertisingBulkRow) :
    aggBaseOf (addMetrics r row) = aggBaseOf r := rfl

theorem bumpEntry_fst (k : String) (row : AdvertisingBulkRow)
    (p : String × AggRecord) : (bumpEntry k row p).1 = p.1 := by
  unfold bumpEntry
  split <;> rfl

theorem lookup_map_bump (k k' : String) (row : AdvertisingBulkRow) :
    ∀ acc : List (String × AggRecord),
    lookupKey k' (acc.map (bumpEntry k row)) =
      if k' = k then (lookupKey k' acc).map (fun r => addMetrics r row)
      else lookupKey k' acc := by
  intro acc
  induction acc with
  | nil =>
    by_cases h : k' = k <;> simp [lookupKey, h]
  | cons q t ih =>
    obtain ⟨q1, q2⟩ := q
    by_cases h3 : q1 = k
    · have hb : bumpEntry k row (q1, q2) = (q1, addMetrics q2 row) := by
        simp [bumpEntry, h3]
      rw [List.map_cons, hb]
      by_cases h2 : k' = q1
      · have hL : lookupKey k' ((q1, addMetrics q2 row) :: (t.map (bumpEntry k row))) =
            some (addMetrics q2 row) := by
          simp [lookupKey, h2]
        have hR : lookupKey k' ((q1, q2) :: t) = some q2 := by
          simp [lookupKey, h2]
        rw [hL, if_pos (h2.trans h3), hR]
        rfl
      · have hL : lookupKey k' ((q1, addMetrics q2 row) :: (t.map (bumpEntry k row))) =
            lookupKey k' (t.map (bumpEntry k row)) := by
          simp [lookupKey, h2]
        have hR : lookupKey k' ((q1, q2) :: t) = lookupKey k' t := by
          simp [lookupKey, h2]
        rw [hL, hR, ih]
    · have hb : bumpEntry k row (q1, q2) = (q1, q2) := by
        simp [bumpEntry, h3]
      rw [List.map_cons, hb]
      by_cases h2 : k' = q1
      · have hne : k' ≠ k := fun hc => h3 (h2.symm.trans hc)
        have hL : lookupKey k' ((q1, q2) :: (t.map (bumpEntry k row))) = some q2 := by
          simp [lookupKey, h2]
        have hR : lookupKey k' ((q1, q2) :: t) = some q2 := by
          simp [lookupKey, h2]
        rw [hL, if_neg hne, hR]
      · have hL : lookupKey k' ((q1, q2) :: (t.map (bumpEntry k row))) =
            lookupKey k' (t.map (bumpEntry k row)) := by
          simp [lookupKey, h2]
        have hR : lookupKey k' ((q1, q2) :: t) = lookupKey k' t := by
          simp [lookupKey, h2]
        rw [hL, hR, ih]

theorem dedupStep_lookup_self (cid sid : String)
    (acc : List (String × AggRecord)) (row : AdvertisingBulkRow) :
    lookupKey (aggKey cid row) (dedupStep cid sid acc row) =
      some (match lookupKey (aggKey cid row) acc with
            | some r => addMetrics r row
            | none => initAgg cid sid row) := by
  cases hl : lookupKey (aggKey cid row) acc with
  | some r =>
    simp only [dedupStep, hl]
    rw [lookup_map_bump]
    simp [hl]
  | none =>
    simp only [dedupStep, hl]
    rw [lookupKey_append]
    simp [hl, lookupKey]

theorem dedupStep_lookup_other (cid sid : String)
    (acc : List (String × AggRecord)) (row : AdvertisingBulkRow) (k : String)
    (hk : k ≠ aggKey cid row) :
    lookupKey k (dedupStep cid sid acc row) = lookupKey k acc := by
  cases hl : lookupKey (aggKey cid row) acc with
  | some r =>
    simp only [dedupStep, hl]
    rw [lookup_map_bump]
    simp [hk]
  | none =>
    simp only [dedupStep, hl]
    rw [lookupKey_append]
    cases h2 : lookupKey k acc <;> simp [lookupKey, hk]

theorem bulkFold_lookup_none (cid sid : String) (data : List AdvertisingBulkRow) :
    ∀ (acc : List (String × AggRecord)) (k : String),
    lookupKey k (data.foldl (dedupStep cid sid) acc) = none ↔
      (lookupKey k acc = none ∧ ∀ row ∈ data, aggKey cid row ≠ k) := by
  induction data with
  | nil =>
    intro acc k
    simp
  | cons row rest ih =>
    intro acc k
    simp only [List.foldl_cons]
    rw [ih]
    by_cases hk : k = aggKey cid row
    · subst hk
      rw [dedupStep_lookup_self]
      simp
    · rw [dedupStep_lookup_other _ _ _ _ _ hk]
      simp only [List.mem_cons]
      constructor
      · rintro ⟨h1, h2⟩
        refine ⟨h1, ?_⟩
        rintro r (rfl | hr)
        · exact fun hEq => hk hEq.symm
        · exact h2 r hr
      · rintro ⟨h1, h2⟩
        exact ⟨h1, fun r hr => h2 r (Or.inr hr)⟩

theorem bulkFold_lookup_metric (cid sid : String)
    (f : AggRecord → ℚ) (g : AdvertisingBulkRow → ℚ)
    (hadd : ∀ r row, f (addMetrics r row) = f r + g row)
    (hinit : ∀ row, f (initAgg cid sid row) = g row)
    (data : List AdvertisingBulkRow) :
    ∀ (acc : List (String × AggRecord)) (k : String) (r : AggRecord),
    lookupKey k (data.foldl (dedupStep cid sid) acc) = some r →
    f r = (match lookupKey k acc with | some r0 => f r0 | none => 0) +
      ((data.filter (fun row => aggKey cid row = k)).map g).sum := by
  induction data with
  | nil =>
    intro acc k r h
    simp only [List.foldl_nil] at h
    simp [h]
  | cons row rest ih =>
    intro acc k r h
    simp only [List.foldl_cons] at h
    have hrec := ih (dedupStep cid sid acc row) k r h
    by_cases hk : k = aggKey cid row
    · subst hk
      rw [dedupStep_lookup_self] at hrec
      have hfil : List.filter (fun row' => decide (aggKey cid row' = aggKey cid row))
          (row :: rest) =
          row :: List.filter (fun row' => decide (aggKey cid row' = aggKey cid row)) rest := by
        simp [List.filter_cons]
      rw [hfil, List.map_cons, List.sum_cons]
      cases hacc : lookupKey (aggKey cid row) acc with
      | some r0 =>
        rw [hacc] at hrec
        simp only at hrec
        rw [hrec, hadd]
        ring
      | none =>
        rw [hacc] at hrec
        simp only at hrec
        rw [hrec, hinit]
        ring
    · rw [dedupStep_lookup_other _ _ _ _ _ hk] at hrec
      rw [List.filter_cons]
      rw [if_neg (by simpa using fun hEq => hk hEq.symm)]
      exact hrec

theorem bulkStep_keys (cid sid : String) (acc : List (String × AggRecord))
    (row : AdvertisingBulkRow) :
    (dedupStep cid sid acc row).map Prod.fst =
      if aggKey cid row ∈ acc.map Prod.fst then acc.map Prod.fst
      else acc.map Prod.fst ++ [aggKey cid row] := by
  cases hl : lookupKey (aggKey cid row) acc with
  | none =>
    have hmem := (lookupKey_eq_none_iff _ _).mp hl
    simp only [dedupStep, hl]
    simp [hmem]
  | some existing =>
    have hmem : aggKey cid row ∈ acc.map Prod.fst :=
      List.mem_map.mpr ⟨(aggKey cid row, existing), mem_of_lookupKey hl, rfl⟩
    simp only [dedupStep, hl, hmem, if_true]
    rw [List.map_map]
    apply List.map_congr_left
    intro p _
    by_cases h : p.1 = aggKey cid row <;> simp [bumpEntry_fst, h]

theorem bulkStep_keyed {cid sid : String} {acc : List (String × AggRecord)}
    {row : AdvertisingBulkRow}
    (hk : ∀ p ∈ acc, p.1 = aggRecordKey p.2) :
    ∀ p ∈ dedupStep cid sid acc row, p.1 = aggRecordKey p.2 := by
  intro p hp
  cases hl : lookupKey (aggKey cid row) acc with
  | none =>
    simp only [dedupStep, hl] at hp
    rcases List.mem_append.mp hp with h | h
    · exact hk p h
    · simp at h
      subst h
      exact (aggRecordKey_initAgg cid sid row).symm
  | some existing =>
    simp only [dedupStep, hl] at hp
    obtain ⟨q, hq, hq2⟩ := List.mem_map.mp hp
    by_cases hkey : q.1 = aggKey cid row
    · simp [bumpEntry, hkey] at hq2
      subst hq2
      rw [aggRecordKey_addMetrics, ← hk q hq, hkey]
    · simp [bumpEntry, hkey] at hq2
      subst hq2
      exact hk q hq

theorem bulkStep_base {cid sid : String} {acc : List (String × AggRecord)}
    {row : AdvertisingBulkRow} :
    ∀ p ∈ dedupStep cid sid acc row,
      (∃ q ∈ acc, aggBaseOf p.2 = aggBaseOf q.2) ∨
      aggBaseOf p.2 =
        (cid, row.report_date, row.campaign_id, row.ad_group_id, row.keyword_id) := by
  intro p hp
  cases hl : lookupKey (aggKey cid row) acc with
  | none =>
    simp only [dedupStep, hl] at hp
    rcases List.mem_append.mp hp with h | h
    · exact Or.inl ⟨p, h, rfl⟩
    · simp at h
      subst h
      exact Or.inr (by simp [aggBaseOf, initAgg, strOrElse_empty])
  | some existing =>
    simp only [dedupStep, hl] at hp
    obtain ⟨q, hq, hq2⟩ := List.mem_map.mp hp
    by_cases hkey : q.1 = aggKey cid row
    · simp [bumpEntry, hkey] at hq2
      subst hq2
      exact Or.inl ⟨q, hq, aggBaseOf_addMetrics _ _⟩
    · simp [bumpEntry, hkey] at hq2
      subst hq2
      exact Or.inl ⟨q, hq, rfl⟩

theorem bulkFoldStruct (cid sid : String) (data : List AdvertisingBulkRow) :
    ∀ acc : List (String × AggRecord),
    (acc.map Prod.fst).Nodup → (∀ p ∈ acc, p.1 = aggRecordKey p.2) →
    ((data.foldl (dedupStep cid sid) acc).map Prod.fst).Nodup ∧
    (∀ p ∈ data.foldl (dedupStep cid sid) acc, p.1 = aggRecordKey p.2) ∧
    (∀ p ∈ data.foldl (dedupStep cid sid) acc,
      (∃ q ∈ acc, aggBaseOf p.2 = aggBaseOf q.2) ∨
      ∃ row ∈ data, aggBaseOf p.2 =
        (cid, row.report_date, row.campaign_id, row.ad_group_id, row.keyword_id)) := by
  induction data with
  | nil =>
    intro acc hn hk
    exact ⟨hn, hk, fun p hp => Or.inl ⟨p, by simpa using hp, rfl⟩⟩
  | cons row rest ih =>
    intro acc hn hk
    simp only [List.foldl_cons]
    have hn' : ((dedupStep cid sid acc row).map Prod.fst).Nodup := by
      rw [bulkStep_keys]
      split
      · exact hn
      case isFalse hmem =>
        simpa using List.Nodup.append hn (by simp) (by simpa using hmem)
    have hk' : ∀ p ∈ dedupStep cid sid acc row, p.1 = aggRecordKey p.2 :=
      bulkStep_keyed hk
    obtain ⟨jn, jk, jbase⟩ := ih (dedupStep cid sid acc row) hn' hk'
    refine ⟨jn, jk, ?_⟩
    intro p hp
    rcases jbase p hp with ⟨q, hq, hqb⟩ | ⟨row', hrow', hb⟩
    · rcases bulkStep_base q hq with ⟨q2, hq2, hq2b⟩ | hqi
      · exact Or.inl ⟨q2, hq2, hqb.trans hq2b⟩
      · exact Or.inr ⟨row, List.mem_cons_self _ _, hqb.trans hqi⟩
    · exact Or.inr ⟨row', List.mem_cons_of_mem _ hrow', hb⟩

theorem bulkKey_data (cid a b c d : String) :
    (bulkKey cid a b c d).data =
      cid.data ++ '|' :: (a.data ++ '|' :: (b.data ++ '|' :: (c.data ++ '|' :: d.data))) := by
  simp only [bulkKey, String.data_append, List.append_assoc]
  rfl

theorem bulkKey_inj {cid a b c d a' b' c' d' : String}
    (ha : noPipe a = true) (hb : noPipe b = true) (hc : noPipe c = true)
    (ha' : noPipe a' = true) (hb' : noPipe b' = true) (hc' : noPipe c' = true)
    (h : bulkKey cid a b c d = bulkKey cid a' b' c' d') :
    a = a' ∧ b = b' ∧ c = c' ∧ d = d' := by
  have hd : (bulkKey cid a b c d).data = (bulkKey cid a' b' c' d').data := by rw [h]
  rw [bulkKey_data, bulkKey_data] at hd
  have hd2 := List.append_cancel_left hd
  injection hd2 with _ hd3
  obtain ⟨h1, hrest⟩ :=
    pipeSplit _ _ a.data a'.data (noPipe_not_mem ha) (noPipe_not_mem ha') hd3
  obtain ⟨h2, hrest2⟩ :=
    pipeSplit _ _ b.data b'.data (noPipe_not_mem hb) (noPipe_not_mem hb') hrest
  obtain ⟨h3, h4⟩ :=
    pipeSplit _ _ c.data c'.data (noPipe_not_mem hc) (noPipe_not_mem hc') hrest2
  exact ⟨String.ext h1, String.ext h2, String.ext h3, String.ext h4⟩

theorem rowNoPipe_spec {row : AdvertisingBulkRow} (h : rowNoPipe row = true) :
    noPipe row.report_date = true ∧ noPipe row.campaign_id = true ∧
    noPipe row.ad_group_id = true ∧ noPipe row.keyword_id = true := by
  simp only [rowNoPipe, Bool.and_eq_true] at h
  exact ⟨h.1.1.1, h.1.1.2, h.1.2, h.2⟩

theorem filter_congr_mem {α : Type} {p q : α → Bool} :
    ∀ (l : List α), (∀ x ∈ l, p x = q x) → l.filter p = l.filter q := by
  intro l
  induction l with
  | nil => intro _; rfl
  | cons a t ih =>
    intro h
    have ha := h a (List.mem_cons_self _ _)
    rw [List.filter_cons, List.filter_cons, ha,
      ih (fun x hx => h x (List.mem_cons_of_mem _ hx))]

theorem bulkFold_entry (cid sid : String) (data : List AdvertisingBulkRow)
    {p : String × AggRecord} (hp : p ∈ data.foldl (dedupStep cid sid) []) :
    p.1 = aggRecordKey p.2 ∧ p.2.client_id = cid ∧
    ∃ row0 ∈ data, p.2.report_date = row0.report_date ∧
      p.2.campaign_id = row0.campaign_id ∧
      p.2.ad_group_id = row0.ad_group_id ∧
      p.2.keyword_id = row0.keyword_id := by
  obtain ⟨hn, hkd, hbase⟩ := bulkFoldStruct cid sid data [] (by simp) (by simp)
  rcases hbase p hp with ⟨q, hq, _⟩ | ⟨row0, hrow0, hb⟩
  · simp at hq
  · simp only [aggBaseOf, Prod.mk.injEq] at hb
    exact ⟨hkd p hp, hb.1, row0, hrow0, hb.2.1, hb.2.2.1, hb.2.2.2.1, hb.2.2.2.2⟩

theorem bulkKey_eq_iff_quad (cid : String) {r : AggRecord}
    {row : AdvertisingBulkRow}
    (hra : noPipe r.report_date = true) (hrb : noPipe r.campaign_id = true)
    (hrc : noPipe r.ad_group_id = true)
    (hwa : noPipe row.report_date = true) (hwb : noPipe row.campaign_id = true)
    (hwc : noPipe row.ad_group_id = true) (hcid : r.client_id = cid) :
    (aggKey cid row = aggRecordKey r) ↔
      quadKey row = (r.report_date, r.campaign_id, r.ad_group_id, r.keyword_id) := by
  constructor
  · intro h
    rw [aggKey, aggRecordKey, hcid] at h
    obtain ⟨h1, h2, h3, h4⟩ := bulkKey_inj hwa hwb hwc hra hrb hrc h
    simp [quadKey, h1, h2, h3, h4]
  · intro h
    simp only [quadKey, Prod.mk.injEq] at h
    rw [aggKey, aggRecordKey, hcid, h.1, h.2.1, h.2.2.1, h.2.2.2]

/-- C1 (amended): provided no row's report date, campaign id, ad-group id
or keyword id contains the `'|'` character used to build the in-memory merge
key, `saveAdvertisingBulk` merges rows sharing the composite key
(client, report date, campaign id, ad-group id, keyword id) into exactly
one record — records carry pairwise-distinct composite keys and cover
every input row — whose impressions, clicks, spend, sales, orders and
units are the sums over the rows sharing that key, and whose ACOS, ROAS,
CTR, CPC and conversion rate are recomputed from those aggregated sums
(guarded against zero denominators), never carried over from any input
row's own ratio fields. -/
theorem advertising_bulk_aggregation (clientId sessionId : String)
    (data : List AdvertisingBulkRow)
    (hpipe : ∀ row ∈ data, rowNoPipe row = true) :
    ((saveAdvertisingBulkRecords clientId sessionId data).map quadKeyRec).Nodup ∧
    (∀ row ∈ data, ∃ rec ∈ saveAdvertisingBulkRecords clientId sessionId data,
      quadKeyRec rec = quadKey row) ∧
    (∀ rec ∈ saveAdvertisingBulkRecords clientId sessionId data,
      rec.impressions = ((data.filter
        (fun row => quadKey row = quadKeyRec rec)).map
          (fun row => row.impressions)).sum ∧
      rec.clicks = ((data.filter (fun row => quadKey row = quadKeyRec rec)).map
        (fun row => row.clicks)).sum ∧
      rec.spend = ((data.filter (fun row => quadKey row = quadKeyRec rec)).map
        (fun row => row.spend)).sum ∧
      rec.sales = ((data.filter (fun row => quadKey row = quadKeyRec rec)).map
        (fun row => row.sales)).sum ∧
      rec.orders = ((data.filter (fun row => quadKey row = quadKeyRec rec)).map
        (fun row => row.orders)).sum ∧
      rec.units = ((data.filter (fun row => quadKey row = quadKeyRec rec)).map
        (fun row => row.units)).sum ∧
      rec.acos = (if rec.sales > 0 then rec.spend / rec.sales else 0) ∧
      rec.roas = (if rec.spend > 0 then rec.sales / rec.spend else 0) ∧
      rec.ctr = (if rec.impressions > 0 then rec.clicks / rec.impressions else 0) ∧
      rec.cpc = (if rec.clicks > 0 then rec.spend / rec.clicks else 0) ∧
      rec.conversion_rate = (if rec.clicks > 0 then rec.orders / rec.clicks else 0)) := by
  obtain ⟨hn, hkd, _⟩ := bulkFoldStruct clientId sessionId data [] (by simp) (by simp)
  refine ⟨?_, ?_, ?_⟩
  · unfold saveAdvertisingBulkRecords advertisingBulkDedup
    rw [List.map_map]
    have hpt : (data.foldl (dedupStep clientId sessionId) []).map
        (quadKeyRec ∘ fun p => finalizeAgg p.2) =
        (data.foldl (dedupStep clientId sessionId) []).map
          (fun p => (p.2.report_date, p.2.campaign_id, p.2.ad_group_id, p.2.keyword_id)) := rfl
    rw [hpt]
    have hkeys : (data.foldl (dedupStep clientId sessionId) []).map
        (fun p => bulkKey clientId p.2.report_date p.2.campaign_id
          p.2.ad_group_id p.2.keyword_id) =
        (data.foldl (dedupStep clientId sessionId) []).map Prod.fst := by
      apply List.map_congr_left
      intro p hp
      obtain ⟨hkey, hcid, _⟩ := bulkFold_entry clientId sessionId data hp
      rw [hkey, aggRecordKey, hcid]
    have hn2 : ((data.foldl (dedupStep clientId sessionId) []).map
        (fun p => bulkKey clientId p.2.report_date p.2.campaign_id
          p.2.ad_group_id p.2.keyword_id)).Nodup := by
      rw [hkeys]
      exact hn
    have hcomp : (data.foldl (dedupStep clientId sessionId) []).map
        (fun p => bulkKey clientId p.2.report_date p.2.campaign_id
          p.2.ad_group_id p.2.keyword_id) =
        ((data.foldl (dedupStep clientId sessionId) []).map
          (fun p => (p.2.report_date, p.2.campaign_id, p.2.ad_group_id, p.2.keyword_id))).map
          (fun q => bulkKey clientId q.1 q.2.1 q.2.2.1 q.2.2.2) := by
      rw [List.map_map]
      rfl
    rw [hcomp] at hn2
    exact hn2.of_map _
  · intro row hrow
    have hne : lookupKey (aggKey clientId row)
        (data.foldl (dedupStep clientId sessionId) []) ≠ none := by
      intro hnone
      rw [bulkFold_lookup_none] at hnone
      exact hnone.2 row hrow rfl
    cases hlk : lookupKey (aggKey clientId row)
      (data.foldl (dedupStep clientId sessionId) []) with
    | none => exact absurd hlk hne
    | some r =>
      have hmem := mem_of_lookupKey hlk
      refine ⟨finalizeAgg r, List.mem_map.mpr ⟨(aggKey clientId row, r), hmem, rfl⟩, ?_⟩
      obtain ⟨hkey, hcid, row0, hrow0, ha, hb, hc, hd⟩ :=
        bulkFold_entry clientId sessionId data (p := (aggKey clientId row, r)) hmem
      obtain ⟨h0a, h0b, h0c, _⟩ := rowNoPipe_spec (hpipe row0 hrow0)
      obtain ⟨hwa, hwb, hwc, _⟩ := rowNoPipe_spec (hpipe row hrow)
      have hq := (@bulkKey_eq_iff_quad clientId r row
        (by rw [ha]; exact h0a) (by rw [hb]; exact h0b) (by rw [hc]; exact h0c)
        hwa hwb hwc hcid).mp hkey
      exact hq.symm
  · intro rec hrec
    obtain ⟨p, hp, hfin⟩ := List.mem_map.mp hrec
    obtain ⟨hkey, hcid, row0, hrow0, ha, hb, hc, hd⟩ :=
      bulkFold_entry clientId sessionId data hp
    obtain ⟨h0a, h0b, h0c, _⟩ := rowNoPipe_spec (hpipe row0 hrow0)
    have hfilter : data.filter (fun row => quadKey row = quadKeyRec rec) =
        data.filter (fun row => aggKey clientId row = p.1) := by
      apply filter_congr_mem
      intro row hrow
      obtain ⟨hwa, hwb, hwc, _⟩ := rowNoPipe_spec (hpipe row hrow)
      rw [decide_eq_decide]
      have hiff := @bulkKey_eq_iff_quad clientId p.2 row
        (by rw [ha]; exact h0a) (by rw [hb]; exact h0b) (by rw [hc]; exact h0c)
        hwa hwb hwc hcid
      rw [← hfin]
      rw [← hkey] at hiff
      exact hiff.symm
    have hmetric : ∀ (f : AggRecord → ℚ) (g : AdvertisingBulkRow → ℚ),
        (∀ r row, f (addMetrics r row) = f r + g row) →
        (∀ row, f (initAgg clientId sessionId row) = g row) →
        f p.2 = ((data.filter (fun row => aggKey clientId row = p.1)).map g).sum := by
      intro f g hadd hinit
      have h := bulkFold_lookup_metric clientId sessionId f g hadd hinit data []
        p.1 p.2 (lookupKey_of_mem_nodup hn hp)
      simpa [lookupKey] using h
    rw [← hfin]
    rw [← hfin] at hfilter
    refine ⟨?_, ?_, ?_, ?_, ?_, ?_, rfl, rfl, rfl, rfl, rfl⟩ <;>
      rw [hfilter] <;>
      [exact hmetric (fun r => r.impressions) (fun row => row.impressions)
        (fun _ _ => rfl) (fun _ => rfl);
       exact hmetric (fun r => r.clicks) (fun row => row.clicks)
        (fun _ _ => rfl) (fun _ => rfl);
       exact hmetric (fun r => r.spend) (fun row => row.spend)
        (fun _ _ => rfl) (fun _ => rfl);
       exact hmetric (fun r => r.sales) (fun row => row.sales)
        (fun _ _ => rfl) (fun _ => rfl);
       exact hmetric (fun r => r.orders) (fun row => row.orders)
        (fun _ _ => rfl) (fun _ => rfl);
       exact hmetric (fun r => r.units) (fun row => row.units)
        (fun _ _ => rfl) (fun _ => rfl)]

/-- Row builder for concrete aggregation examples: key fields, the six
metrics, and an explicit input-side CTR (the other input ratio fields are
zero). -/
def mkBulkRowEx (reportDate campaignId adGroupId keywordId : String)
    (impressions clicks spend sales orders units ctrIn : ℚ) :
    AdvertisingBulkRow :=
  { report_date := reportDate, campaign_id := campaignId, campaign_name := "",
    campaign_type := "SP", campaign_status := "", ad_group_id := adGroupId,
    ad_group_name := "", keyword_id := keywordId, keyword_text := "",
    match_type := "", targeting_type := "", sku := "", asin := "",
    impressions := impressions, clicks := clicks, spend := spend,
    sales := sales, orders := orders, units := units, acos := 0, roas := 0,
    ctr := ctrIn, cpc := 0, conversion_rate := 0 }

/-- A row whose ad-group id contains the `'|'` separator. -/
def cxR1 : AdvertisingBulkRow := mkBulkRowEx "" "A" "B|C" "" 10 1 0 0 0 0 0

/-- A row with a different composite key (campaign id `"A|B"`, ad group
`"C"`) whose concatenated merge key collides with `cxR1`'s. -/
def cxR2 : AdvertisingBulkRow := mkBulkRowEx "" "A|B" "C" "" 20 2 0 0 0 0 0

unseal Rat.add Rat.mul Rat.inv in
/-- C1 counterexample: `cxR1` (campaign id `"A"`, ad group `"B|C"`) and
`cxR2` (campaign id `"A|B"`, ad group `"C"`) have distinct composite keys,
yet their pipe-joined merge keys collide, so `saveAdvertisingBulk` merges
them into a single record: the record's impressions (30) are not the sum
over the rows sharing its composite key (10), and `cxR2`'s composite key
has no persisted record at all — the claim fails as stated. -/
theorem advertising_bulk_aggregation_counterexample :
    quadKey cxR1 ≠ quadKey cxR2 ∧
    (saveAdvertisingBulkRecords "C" "S" [cxR1, cxR2]).length = 1 ∧
    ¬(∀ rec ∈ saveAdvertisingBulkRecords "C" "S" [cxR1, cxR2],
        rec.impressions = (([cxR1, cxR2].filter
          (fun row => quadKey row = quadKeyRec rec)).map
            (fun row => row.impressions)).sum) ∧
    ¬(∃ rec ∈ saveAdvertisingBulkRecords "C" "S" [cxR1, cxR2],
        quadKeyRec rec = quadKey cxR2) := by
  refine ⟨by decide, by decide, by decide, by decide⟩

/-- Two rows sharing the composite key, with impressions 10/20, clicks 1/2
and carried-over input CTRs 99 and 77. -/
def exR1 : AdvertisingBulkRow :=
  mkBulkRowEx "2025-01-31" "c1" "g1" "k1" 10 1 2 5 1 1 99

/-- The duplicate of `exR1` on the same composite key. -/
def exR2 : AdvertisingBulkRow :=
  mkBulkRowEx "2025-01-31" "c1" "g1" "k1" 20 2 3 5 1 1 77

unseal Rat.add Rat.mul Rat.inv in
/-- Witness for C1: the two same-key rows aggregate to one record with
impressions 30, clicks 3 and a freshly recomputed CTR of 3/30 = 1/10 —
not either input row's own CTR field (99 or 77). -/
theorem advertising_bulk_aggregation_witness :
    (∃ rec ∈ saveAdvertisingBulkRecords "C" "S" [exR1, exR2],
      quadKeyRec rec = quadKey exR1) ∧
    ((saveAdvertisingBulkRecords "C" "S" [exR1, exR2]).map
      (fun r => r.impressions) = [30]) ∧
    ((saveAdvertisingBulkRecords "C" "S" [exR1, exR2]).map
      (fun r => r.clicks) = [3]) ∧
    ((saveAdvertisingBulkRecords "C" "S" [exR1, exR2]).map
      (fun r => r.ctr) = [mkRat 1 10]) ∧
    exR1.ctr = 99 ∧ exR2.ctr = 77 := by
  refine ⟨(advertising_bulk_aggregation "C" "S" [exR1, exR2] (by decide)).2.1
    exR1 (by decide), by decide, by decide, by decide, by decide, by decide⟩

/-! ## C9: the column resolver binds each key to the first matching column -/

theorem bindKeys_lookup (i : Nat) (h : String) (ms : List (String × List String)) :
    ∀ (cm : List (String × Nat)) (key : String),
    lookupKey key (bindKeysStep ms i h cm) =
      match lookupKey key cm with
      | some j => some j
      | none => if keyMatchesHeader ms key h then some i else none := by
  induction ms with
  | nil =>
    intro cm key
    simp only [bindKeysStep, List.foldl_nil, keyMatchesHeader, List.any_nil]
    cases hc : lookupKey key cm <;> simp
  | cons kv ms' ih =>
    intro cm key
    simp only [bindKeysStep, List.foldl_cons] at *
    by_cases hcond : variantsMatch kv.2 (trimStr (toLowerStr h)) = true ∧
        lookupKey kv.1 cm = none
    · rw [if_pos hcond, ih (cm ++ [(kv.1, i)]) key, lookupKey_append]
      cases hc : lookupKey key cm with
      | some j => simp
      | none =>
        by_cases hk : key = kv.1
        · have hm : keyMatchesHeader (kv :: ms') key h = true := by
            simp [keyMatchesHeader, List.any_cons, hk, hcond.1]
          rw [hk] at hm
          simp [lookupKey, hk, hm]
        · have hbf : (kv.1 == key) = false :=
            beq_eq_false_iff_ne.mpr (fun hEq => hk hEq.symm)
          have hm : keyMatchesHeader (kv :: ms') key h =
              keyMatchesHeader ms' key h := by
            simp [keyMatchesHeader, List.any_cons, hbf]
          simp [lookupKey, hk, hm]
    · rw [if_neg hcond, ih cm key]
      cases hc : lookupKey key cm with
      | some j => simp
      | none =>
        by_cases hk : key = kv.1
        · have hnv : variantsMatch kv.2 (trimStr (toLowerStr h)) = false := by
            rcases not_and_or.mp hcond with hv | hv
            · simpa using hv
            · rw [hk] at hc
              exact absurd hc hv
          have hm : keyMatchesHeader (kv :: ms') key h =
              keyMatchesHeader ms' key h := by
            simp [keyMatchesHeader, List.any_cons, hnv]
          simp [hm]
        · have hbf : (kv.1 == key) = false :=
            beq_eq_false_iff_ne.mpr (fun hEq => hk hEq.symm)
          have hm : keyMatchesHeader (kv :: ms') key h =
              keyMatchesHeader ms' key h := by
            simp [keyMatchesHeader, List.any_cons, hbf]
          simp [hm]

theorem buildCMGo_lookup (ms : List (String × List String)) :
    ∀ (hs : List String) (i : Nat) (cm : List (String × Nat)) (key : String),
    lookupKey key (buildCMGo ms i hs cm) =
      match lookupKey key cm with
      | some j => some j
      | none => List.findIdx? (fun hd => keyMatchesHeader ms key hd) hs i := by
  intro hs
  induction hs with
  | nil =>
    intro i cm key
    simp only [buildCMGo, List.findIdx?]
    cases hc : lookupKey key cm <;> simp
  | cons hd hs' ih =>
    intro i cm key
    simp only [buildCMGo]
    rw [ih (i + 1) (bindKeysStep ms i hd cm) key, bindKeys_lookup,
      List.findIdx?_cons]
    cases hc : lookupKey key cm with
    | some j => simp
    | none =>
      by_cases hm : keyMatchesHeader ms key hd = true
      · simp [hm]
      · have hm' : keyMatchesHeader ms key hd = false := by simpa using hm
        simp [hm']

theorem findIdx?_str_some (p : String → Bool) :
    ∀ (l : List String) (s j : Nat), List.findIdx? p l s = some j →
      j - s < l.length ∧ s ≤ j ∧ p (l.getD (j - s) "") = true ∧
      ∀ t, t < j - s → p (l.getD t "") = false := by
  intro l
  induction l with
  | nil =>
    intro s j h
    simp [List.findIdx?] at h
  | cons hd tl ih =>
    intro s j h
    rw [List.findIdx?_cons] at h
    by_cases hp : p hd = true
    · rw [if_pos hp] at h
      injection h with h
      subst h
      refine ⟨by simp, le_refl _, by simpa using hp, ?_⟩
      intro t ht
      omega
    · rw [if_neg hp] at h
      obtain ⟨h1, h2, h3, h4⟩ := ih (s + 1) j h
      have hjs : j - s = (j - (s + 1)) + 1 := by omega
      refine ⟨by simp; omega, by omega, ?_, ?_⟩
      · rw [hjs]
        simpa using h3
      · intro t ht
        rw [hjs] at ht
        cases t with
        | zero => simpa using (by simpa using hp : p hd = false)
        | succ t' =>
          have := h4 t' (by omega)
          simpa using this

theorem findIdx?_str_none (p : String → Bool) :
    ∀ (l : List String) (s : Nat), List.findIdx? p l s = none →
      ∀ hd ∈ l, p hd = false := by
  intro l
  induction l with
  | nil =>
    intro s _ hd hmem
    simp at hmem
  | cons h0 tl ih =>
    intro s hn hd hmem
    rw [List.findIdx?_cons] at hn
    by_cases hp : p h0 = true
    · rw [if_pos hp] at hn
      exact absurd hn (by simp)
    · rw [if_neg hp] at hn
      rcases List.mem_cons.mp hmem with hEq | hmem'
      · subst hEq
        simpa using hp
      · exact ih (s + 1) hn hd hmem'

/-- C9: in the advertising-report column resolver, each semantic key is
bound to the smallest column index whose lowercased, trimmed header
contains one of the key's variant substrings (later matching columns never
rebind an already-bound key, and an unbound key means no header matches),
and `getColumn` returns the cleaned cell at the bound index, or `""`
whenever the key is unbound or the row has no cell at that index. -/
theorem column_resolver_first_match (headers : List String) (key : String) :
    (∀ i, lookupKey key (buildColumnMap advMappings headers) = some i →
      i < headers.length ∧
      keyMatchesHeader advMappings key (headers.getD i "") = true ∧
      ∀ t, t < i → keyMatchesHeader advMappings key (headers.getD t "") = false) ∧
    (lookupKey key (buildColumnMap advMappings headers) = none →
      ∀ hd ∈ headers, keyMatchesHeader advMappings key hd = false) ∧
    (∀ values : List String,
      getColumn (buildColumnMap advMappings headers) values key =
        match lookupKey key (buildColumnMap advMappings headers) with
        | none => ""
        | some i => if values.length ≤ i then ""
                    else cleanString (values.getD i "")) := by
  have hlook : lookupKey key (buildColumnMap advMappings headers) =
      List.findIdx? (fun hd => keyMatchesHeader advMappings key hd) headers 0 := by
    rw [buildColumnMap, buildCMGo_lookup]
    simp [lookupKey]
  refine ⟨?_, ?_, fun values => rfl⟩
  · intro i hi
    rw [hlook] at hi
    obtain ⟨h1, -, h3, h4⟩ := findIdx?_str_some _ headers 0 i hi
    simp only [Nat.sub_zero] at h1 h3 h4
    exact ⟨h1, h3, h4⟩
  · intro hnone
    rw [hlook] at hnone
    exact findIdx?_str_none _ headers 0 hnone

/-- A header row with two columns matching the `campaign_id` key: the
first one (index 1) wins. -/
def sampleHeaders : List String := ["Campaign Name", "Campaign ID", "Campaign ID 2"]

/-- Witness for C9: `campaign_id` binds to column 1 (not 2), `getColumn`
returns the cleaned cell there, `""` on a short row, and `""` for an
unbound key. -/
theorem column_resolver_first_match_witness :
    (lookupKey "campaign_id" (buildColumnMap advMappings sampleHeaders) = some 1) ∧
    (1 < sampleHeaders.length ∧
      keyMatchesHeader advMappings "campaign_id" (sampleHeaders.getD 1 "") = true ∧
      ∀ t, t < 1 →
        keyMatchesHeader advMappings "campaign_id" (sampleHeaders.getD t "") = false) ∧
    getColumn (buildColumnMap advMappings sampleHeaders) ["n", "\"c42\""] "campaign_id" = "c42" ∧
    getColumn (buildColumnMap advMappings sampleHeaders) ["n"] "campaign_id" = "" ∧
    getColumn (buildColumnMap advMappings sampleHeaders) ["n", "c42"] "date" = "" := by
  refine ⟨by decide,
    (column_resolver_first_match sampleHeaders "campaign_id").1 1 (by decide),
    by decide, by decide, by decide⟩

/-! ## C8: zero-denominator guards on derived metrics -/

theorem advReportRowOf_ratios {cm : List (String × Nat)} {today : String}
    {values : List String} {r : AdvertisingReportRow}
    (h : advReportRowOf cm today values = some r) :
    r.acos = (if r.sales > 0 then r.spend / r.sales else 0) ∧
    r.roas = (if r.spend > 0 then r.sales / r.spend else 0) ∧
    r.ctr = (if r.impressions > 0 then r.clicks / r.impressions else 0) ∧
    r.cpc = (if r.clicks > 0 then r.spend / r.clicks else 0) ∧
    r.conversion_rate = (if r.clicks > 0 then r.orders / r.clicks else 0) := by
  unfold advReportRowOf at h
  dsimp only at h
  split at h
  · exact absurd h (by simp)
  · injection h with h
    subst h
    exact ⟨rfl, rfl, rfl, rfl, rfl⟩

theorem advReportGo_mem {cm : List (String × Nat)} {today : String} :
    ∀ (i : Nat) (lines : List String) (r : AdvertisingReportRow),
    r ∈ (advReportGo cm today i lines).1 →
    ∃ values, advReportRowOf cm today values = some r := by
  intro i lines
  induction lines generalizing i with
  | nil =>
    intro r hr
    simp [advReportGo] at hr
  | cons line rest ih =>
    intro r hr
    simp only [advReportGo] at hr
    cases hrow : advReportRowOf cm today (parseCSVLine line) with
    | some row =>
      rw [hrow] at hr
      rcases List.mem_cons.mp hr with hEq | hmem
      · exact ⟨parseCSVLine line, hEq ▸ hrow⟩
      · exact ih (i + 1) r hmem
    | none =>
      rw [hrow] at hr
      exact ih (i + 1) r hr

/-- C8: every derived ratio is guarded against a non-positive denominator
and yields 0 in that case — for every row produced by the advertising-report
CSV parser, and for every record produced by the post-aggregation
recomputation of the advertising-bulk save strategy. -/
theorem derived_metric_guards :
    (∀ (today content : String) (r : AdvertisingReportRow),
      r ∈ (advertisingReportParse today content).data →
      (r.sales ≤ 0 → r.acos = 0) ∧ (r.impressions ≤ 0 → r.ctr = 0) ∧
      (r.clicks ≤ 0 → r.cpc = 0 ∧ r.conversion_rate = 0) ∧
      (r.spend ≤ 0 → r.roas = 0)) ∧
    (∀ (clientId sessionId : String) (data : List AdvertisingBulkRow)
      (rec : AdMetricRecord),
      rec ∈ saveAdvertisingBulkRecords clientId sessionId data →
      (rec.sales ≤ 0 → rec.acos = 0) ∧ (rec.impressions ≤ 0 → rec.ctr = 0) ∧
      (rec.clicks ≤ 0 → rec.cpc = 0 ∧ rec.conversion_rate = 0) ∧
      (rec.spend ≤ 0 → rec.roas = 0)) := by
  constructor
  · intro today content r hr
    unfold advertisingReportParse at hr
    dsimp only at hr
    split at hr
    · simp [createResult] at hr
    · simp only [createResult] at hr
      obtain ⟨values, hrow⟩ := advReportGo_mem _ _ r hr
      obtain ⟨hacos, hroas, hctr, hcpc, hconv⟩ := advReportRowOf_ratios hrow
      refine ⟨fun hs => ?_, fun hs => ?_, fun hs => ⟨?_, ?_⟩, fun hs => ?_⟩
      · rw [hacos, if_neg (not_lt.mpr hs)]
      · rw [hctr, if_neg (not_lt.mpr hs)]
      · rw [hcpc, if_neg (not_lt.mpr hs)]
      · rw [hconv, if_neg (not_lt.mpr hs)]
      · rw [hroas, if_neg (not_lt.mpr hs)]
  · intro clientId sessionId data rec hrec
    obtain ⟨p, hp, hfin⟩ := List.mem_map.mp hrec
    subst hfin
    refine ⟨fun hs => ?_, fun hs => ?_, fun hs => ⟨?_, ?_⟩, fun hs => ?_⟩ <;>
      simp only [finalizeAgg] at hs ⊢ <;>
      rw [if_neg (not_lt.mpr hs)]

/-- A default advertising-report row (used only as the `getD` fallback of
the witness). -/
def dummyAdvRow : AdvertisingReportRow :=
  { report_date := "", campaign_id := "", campaign_name := "",
    campaign_type := "", campaign_status := "", ad_group_id := "",
    ad_group_name := "", keyword_id := "", keyword_text := "", match_type := "",
    targeting_type := "", impressions := 0, clicks := 0, spend := 0, sales := 0,
    orders := 0, units := 0, acos := 0, roas := 0, ctr := 0, cpc := 0,
    conversion_rate := 0 }

/-- A default aggregated advertising record (the `getD` fallback of the
witness). -/
def dummyAdRecord : AdMetricRecord :=
  { client_id := "", report_date := "", campaign_id := "", campaign_name := "",
    campaign_type := "", campaign_status := "", ad_group_id := "",
    ad_group_name := "", keyword_id := "", keyword_text := "", match_type := "",
    targeting_type := "", impressions := 0, clicks := 0, spend := 0, sales := 0,
    orders := 0, units := 0, data_source_id := "", acos := 0, roas := 0,
    ctr := 0, cpc := 0, conversion_rate := 0 }

/-- An advertising-report CSV whose single data row has spend 5 but zero
sales, impressions, clicks and orders. -/
def advCsvSample : String :=
  "Campaign ID,Spend,Sales,Impressions,Clicks,Orders\nc1,5,0,0,0,0"

/-- The row the parser extracts from `advCsvSample`. -/
def advSampleParsedRow : AdvertisingReportRow :=
  (advertisingReportParse "2026-01-01" advCsvSample).data.getD 0 dummyAdvRow

/-- A bulk row with all metric denominators zero. -/
def bulkGuardRow : AdvertisingBulkRow := mkBulkRowEx "" "c" "" "" 0 0 0 0 0 0 0

/-- The record the bulk save strategy produces from `bulkGuardRow`. -/
def bulkGuardRecord : AdMetricRecord :=
  (saveAdvertisingBulkRecords "C" "S" [bulkGuardRow]).getD 0 dummyAdRecord

unseal Rat.add Rat.mul Rat.inv in
/-- Witness for C8: a parsed row with sales = 0 has acos = 0 (and ctr, cpc,
conversion rate 0 for the zero denominators), and likewise for a record of
the bulk save strategy. -/
theorem derived_metric_guards_witness :
    (advSampleParsedRow.sales ≤ 0 ∧ advSampleParsedRow.acos = 0 ∧
      advSampleParsedRow.ctr = 0 ∧ advSampleParsedRow.cpc = 0 ∧
      advSampleParsedRow.conversion_rate = 0) ∧
    (bulkGuardRecord.sales ≤ 0 ∧ bulkGuardRecord.acos = 0 ∧
      bulkGuardRecord.ctr = 0) := by
  have h1 := derived_metric_guards.1 "2026-01-01" advCsvSample
    advSampleParsedRow (by decide)
  have h2 := derived_metric_guards.2 "C" "S" [bulkGuardRow]
    bulkGuardRecord (by decide)
  exact ⟨⟨by decide, h1.1 (by decide), h1.2.1 (by decide),
    (h1.2.2.1 (by decide)).1, (h1.2.2.1 (by decide)).2⟩,
    ⟨by decide, h2.1 (by decide), h2.2.1 (by decide)⟩⟩
